import Mathlib

/-!
Verification of the social-housing document pipeline: a shallow embedding of
the checklist engine (`ChecklistService`), the classification aggregation
(`ClassificationService`), the extraction normalization and completeness
scoring (`ExtractionService`), the application-status derivation
(`DocumentService.updateApplicationChecklist`) and the reference-number
generator (`ApplicationRepository.generateReferenceNumber`).

Numbers: JavaScript numbers are embedded as rationals (all constants in the
source are exact decimals).  `Math.round x` is embedded as `⌊x + 1/2⌋`, which
agrees with JavaScript's round-half-up semantics.  The wall clock
(`new Date()`), date parsing (`new Date(string)`) and month arithmetic
(`setMonth`) are embedded as an explicit `DateEnv` argument; an unparseable
date (JavaScript `Invalid Date`, whose comparisons are all false) is modelled
by `parseDate` returning `none`.
-/

namespace SocialHousing

/-- JavaScript `Math.round` (round half toward +∞). -/
def jsRound (q : ℚ) : ℤ := ⌊q + 1/2⌋

/-- Decimal digit character, as produced by `Number.prototype.toString`. -/
def digitChar (n : Nat) : Char :=
  if n = 0 then '0' else if n = 1 then '1' else if n = 2 then '2'
  else if n = 3 then '3' else if n = 4 then '4' else if n = 5 then '5'
  else if n = 6 then '6' else if n = 7 then '7' else if n = 8 then '8'
  else if n = 9 then '9' else '*'

/-- Fuelled decimal printer: digits of `n` (most significant first) prepended
to `acc`.  Fuel `n + 1` is always sufficient. -/
def decAux : Nat → Nat → List Char → List Char
  | 0, _, acc => acc
  | f + 1, n, acc =>
    if n < 10 then digitChar n :: acc
    else decAux f (n / 10) (digitChar (n % 10) :: acc)

/-- The decimal representation of a natural number, as JavaScript
`Number.prototype.toString` produces for the integers used by the source. -/
def natToDec (n : Nat) : String := String.mk (decAux (n + 1) n [])

/-- `String.prototype.padStart(4, '0')`. -/
def pad4 (s : String) : String :=
  if s.length < 4 then String.mk (List.replicate (4 - s.length) '0') ++ s else s

/-- Decode a digit string back to a number (left fold, leading zeros are
harmless); used to invert `natToDec`/`pad4`. -/
def decodeDec (l : List Char) : Nat :=
  l.foldl (fun a c => a * 10 + (c.toNat - 48)) 0

/-! ### Data model (backend `types/index.ts`, as used by the services) -/

/-- The closed document-category enum, in declaration order. -/
inductive DocumentCategory
  | identity | income | bank_statement | welfare_benefit | medical
  | tenancy | proof_of_address | other | unknown
deriving DecidableEq, Repr

/-- Document processing states of the orchestrator's state machine. -/
inductive DocumentProcessingStatus
  | uploaded | classifying | classified | extracting | extracted
  | validation_failed | completed | error
deriving DecidableEq, Repr

/-- An extracted scalar value: `string | number | boolean | null`. -/
inductive FieldValue
  | str (s : String)
  | num (q : ℚ)
  | bool (b : Bool)
  | null
deriving DecidableEq, Repr

/-- `ExtractedField`: value, confidence, optional source and issue list. -/
structure ExtractedField where
  value : FieldValue
  confidence : ℚ
  source : Option String := none
  issues : Option (List String) := none
deriving DecidableEq, Repr

/-- A document's extracted data: field name → `ExtractedField` (a JavaScript
object, embedded as an association list in insertion order). -/
structure ExtractedDocData where
  fields : List (String × ExtractedField)
deriving DecidableEq, Repr

/-- The part of the `Document` record the checklist engine reads. -/
structure Document where
  id : String
  originalFileName : String
  category : DocumentCategory
  processingStatus : DocumentProcessingStatus
  classificationConfidence : ℚ
  completenessScore : ℚ
  extractedData : Option ExtractedDocData := none
deriving DecidableEq, Repr

/-- `doc.extractedData?.fields?.<name>` (first entry with that key). -/
def Document.getField (d : Document) (name : String) : Option ExtractedField :=
  match d.extractedData with
  | none => none
  | some ed => (ed.fields.find? (fun p => p.1 == name)).map Prod.snd

/-- A JavaScript truthy string: nonempty (`if (v && typeof v === 'string')`). -/
def truthyStr : FieldValue → Option String
  | .str s => if s = "" then none else some s
  | _ => none

/-- Household member (only the field the checklist reads). -/
structure HouseholdMember where
  requiresSupport : Option Bool := none
deriving DecidableEq, Repr

/-- Applicant snapshot (only the field the checklist reads). -/
structure ApplicantData where
  householdMembers : Option (List HouseholdMember) := none
deriving DecidableEq, Repr

/-- `applicantData?.householdMembers?.some((m) => m.requiresSupport) || false`. -/
def needsMedicalSupport (a : Option ApplicantData) : Bool :=
  match a with
  | none => false
  | some ad =>
    match ad.householdMembers with
    | none => false
    | some ms => ms.any (fun m => m.requiresSupport.getD false)

/-- Status of one checklist item. -/
inductive ChecklistItemStatus
  | missing | pending | verified | issues
deriving DecidableEq, Repr

/-- `ChecklistItem`. -/
structure ChecklistItem where
  required : Bool
  status : ChecklistItemStatus
  documentIds : List String
  issues : Option (List String) := none
deriving DecidableEq, Repr

/-- `DocumentChecklistStatus`: the fixed mapping of checklist slots. -/
structure DocumentChecklistStatus where
  identity : ChecklistItem
  income : ChecklistItem
  bankStatements : ChecklistItem
  proofOfAddress : ChecklistItem
  welfareBenefit : ChecklistItem
  medicalEvidence : ChecklistItem
  tenancyAgreement : ChecklistItem
deriving DecidableEq, Repr

/-! ### Checklist requirements (`ChecklistRequirements`, `DEFAULT_REQUIREMENTS`) -/

structure IdentityReq where
  required : Bool
  minDocuments : Nat
  validityCheck : Option Bool := none
deriving DecidableEq, Repr

structure IncomeReq where
  required : Bool
  minDocuments : Nat
  minMonthsCoverage : Option Nat := none
deriving DecidableEq, Repr

structure BankStatementsReq where
  required : Bool
  minMonthsCoverage : Nat
deriving DecidableEq, Repr

structure ProofOfAddressReq where
  required : Bool
  maxAgeMonths : Nat
deriving DecidableEq, Repr

structure ConditionalReq where
  required : Bool
  conditional : Option String := none
deriving DecidableEq, Repr

structure ChecklistRequirements where
  identity : IdentityReq
  income : IncomeReq
  bankStatements : BankStatementsReq
  proofOfAddress : ProofOfAddressReq
  welfareBenefit : ConditionalReq
  medicalEvidence : ConditionalReq
  tenancyAgreement : ConditionalReq
deriving DecidableEq, Repr

def DEFAULT_REQUIREMENTS : ChecklistRequirements where
  identity := { required := true, minDocuments := 1, validityCheck := some true }
  income := { required := true, minDocuments := 1, minMonthsCoverage := some 3 }
  bankStatements := { required := true, minMonthsCoverage := 3 }
  proofOfAddress := { required := true, maxAgeMonths := 3 }
  welfareBenefit := { required := false, conditional := some "If receiving benefits" }
  medicalEvidence := { required := false, conditional := some "If medical/disability needs" }
  tenancyAgreement := { required := false, conditional := some "If currently renting" }

/-- The clock and date semantics the checklist engine uses: `now` is
`new Date()`, `parseDate` is `new Date(string)` (`none` = Invalid Date, whose
comparisons are all false), `subMonths t m` is `setMonth(getMonth() - m)`
applied to `t`. -/
structure DateEnv where
  now : Int
  parseDate : String → Option Int
  subMonths : Int → Nat → Int

/-! ### Checklist engine (`ChecklistService`) -/

/-- Loop body of `evaluateIdentityDocuments`: accumulates the issue list and
the valid documents. -/
def identityStep (req : IdentityReq) (env : DateEnv)
    (acc : List String × List Document) (doc : Document) :
    List String × List Document :=
  let (issues, validDocs) := acc
  if doc.processingStatus = .error ∨ doc.processingStatus = .validation_failed then
    (issues ++ [doc.originalFileName ++ ": Processing failed"], validDocs)
  else
    let issues1 :=
      if doc.classificationConfidence < 0.7 then
        issues ++ [doc.originalFileName ++ ": Low classification confidence"]
      else issues
    let expiryParsed : Option Int :=
      if req.validityCheck.getD false then
        match doc.getField "expiryDate" with
        | none => none
        | some fld =>
          match truthyStr fld.value with
          | none => none
          | some s => env.parseDate s
      else none
    match expiryParsed with
    | some expiry =>
      if expiry < env.now then
        (issues1 ++ [doc.originalFileName ++ ": Document has expired"], validDocs)
      else
        let issues2 :=
          if doc.completenessScore < 70 then
            issues1 ++ [doc.originalFileName ++ ": Incomplete data extraction ("
              ++ toString doc.completenessScore ++ "%)"]
          else issues1
        (issues2, validDocs ++ [doc])
    | none =>
      let issues2 :=
        if doc.completenessScore < 70 then
          issues1 ++ [doc.originalFileName ++ ": Incomplete data extraction ("
            ++ toString doc.completenessScore ++ "%)"]
        else issues1
      (issues2, validDocs ++ [doc])

def evaluateIdentityDocuments (req : IdentityReq) (env : DateEnv)
    (documents : List Document) : ChecklistItem :=
  if documents = [] then
    { required := req.required, status := .missing, documentIds := [],
      issues := some ["No identity document uploaded"] }
  else
    let (issues, validDocs) := documents.foldl (identityStep req env) ([], [])
    if validDocs.length < req.minDocuments then
      { required := req.required, status := .issues,
        documentIds := documents.map (·.id),
        issues := some (if issues = [] then ["Valid identity document required"] else issues) }
    else
      { required := req.required,
        status := if issues = [] then .verified else .pending,
        documentIds := documents.map (·.id),
        issues := if issues = [] then none else some issues }

def evaluateIncomeDocuments (req : IncomeReq) (documents : List Document) :
    ChecklistItem :=
  if documents = [] then
    { required := req.required, status := .missing, documentIds := [],
      issues := some ["No income documents uploaded"] }
  else
    let issues :=
      (if documents.length < req.minDocuments then
        ["Need at least " ++ natToDec req.minDocuments ++ " income document(s)"]
      else [])
      ++ documents.filterMap (fun d =>
          if d.completenessScore < 70 then
            some (d.originalFileName ++ ": Missing key income information")
          else none)
      ++ (match req.minMonthsCoverage with
          | some mc =>
            if mc ≠ 0 ∧ documents.length > 0 ∧ documents.length < mc then
              ["Recommend " ++ natToDec mc ++ " months of payslips for income verification"]
            else []
          | none => [])
    { required := req.required,
      status := if issues = [] then .verified else .pending,
      documentIds := documents.map (·.id),
      issues := if issues = [] then none else some issues }

def evaluateBankStatements (req : BankStatementsReq) (documents : List Document) :
    ChecklistItem :=
  if documents = [] then
    { required := req.required, status := .missing, documentIds := [],
      issues := some ["Bank statements for the last " ++ natToDec req.minMonthsCoverage
        ++ " months required"] }
  else
    let issues :=
      (if documents.length < req.minMonthsCoverage then
        [natToDec req.minMonthsCoverage ++ " months of statements recommended, only "
          ++ natToDec documents.length ++ " provided"]
      else [])
      ++ documents.filterMap (fun d =>
          if d.completenessScore < 60 then
            some (d.originalFileName ++ ": Key statement details missing")
          else none)
    { required := req.required,
      status := if issues = [] then .verified else .pending,
      documentIds := documents.map (·.id),
      issues := if issues = [] then none else some issues }

def evaluateProofOfAddress (req : ProofOfAddressReq) (env : DateEnv)
    (documents : List Document) : ChecklistItem :=
  if documents = [] then
    { required := req.required, status := .missing, documentIds := [],
      issues := some ["Proof of current address required (utility bill, council tax, etc.)"] }
  else
    let issues := documents.filterMap (fun d =>
      match d.getField "documentDate" with
      | none => none
      | some fld =>
        match truthyStr fld.value with
        | none => none
        | some s =>
          match env.parseDate s with
          | none => none
          | some docDate =>
            if docDate < env.subMonths env.now req.maxAgeMonths then
              some (d.originalFileName ++ ": Document is older than "
                ++ natToDec req.maxAgeMonths ++ " months")
            else none)
    { required := req.required,
      status := if issues = [] then .verified else .pending,
      documentIds := documents.map (·.id),
      issues := if issues = [] then none else some issues }

def evaluateWelfareBenefit (req : ConditionalReq) (documents : List Document)
    (_applicantData : Option ApplicantData) : ChecklistItem :=
  let isRequired := req.required
  if documents = [] then
    { required := isRequired, status := .missing, documentIds := [],
      issues := if isRequired then some ["Benefits documentation required"] else none }
  else
    let issues := documents.filterMap (fun d =>
      if d.completenessScore < 70 then
        some (d.originalFileName ++ ": Missing benefit details")
      else none)
    { required := isRequired,
      status := if issues = [] then .verified else .pending,
      documentIds := documents.map (·.id),
      issues := if issues = [] then none else some issues }

def evaluateMedicalEvidence (req : ConditionalReq) (documents : List Document)
    (applicantData : Option ApplicantData) : ChecklistItem :=
  let isRequired := req.required || needsMedicalSupport applicantData
  if documents = [] then
    { required := isRequired, status := .missing, documentIds := [],
      issues := if isRequired then
        some ["Medical evidence required for support needs assessment"] else none }
  else
    { required := isRequired, status := .verified,
      documentIds := documents.map (·.id), issues := none }

def evaluateTenancy (req : ConditionalReq) (documents : List Document)
    (_applicantData : Option ApplicantData) : ChecklistItem :=
  if documents = [] then
    { required := req.required, status := .missing, documentIds := [],
      issues := if req.required then some ["Current tenancy agreement required"] else none }
  else
    let issues := documents.filterMap (fun d =>
      if d.completenessScore < 60 then
        some (d.originalFileName ++ ": Missing tenancy details")
      else none)
    { required := req.required,
      status := if issues = [] then .verified else .pending,
      documentIds := documents.map (·.id),
      issues := if issues = [] then none else some issues }

/-- `groupDocumentsByCategory` read back at one category: the group map is
built by pushing each document onto its category's list in input order, so the
list read for category `c` is exactly the in-order sublist with that
category. -/
def docsOfCategory (documents : List Document) (c : DocumentCategory) :
    List Document :=
  documents.filter (fun d => d.category == c)

/-- `ChecklistService.evaluateChecklist`. -/
def evaluateChecklist (reqs : ChecklistRequirements) (env : DateEnv)
    (documents : List Document) (applicantData : Option ApplicantData) :
    DocumentChecklistStatus where
  identity := evaluateIdentityDocuments reqs.identity env
    (docsOfCategory documents .identity)
  income := evaluateIncomeDocuments reqs.income (docsOfCategory documents .income)
  bankStatements := evaluateBankStatements reqs.bankStatements
    (docsOfCategory documents .bank_statement)
  proofOfAddress := evaluateProofOfAddress reqs.proofOfAddress env
    (docsOfCategory documents .proof_of_address)
  welfareBenefit := evaluateWelfareBenefit reqs.welfareBenefit
    (docsOfCategory documents .welfare_benefit) applicantData
  medicalEvidence := evaluateMedicalEvidence reqs.medicalEvidence
    (docsOfCategory documents .medical) applicantData
  tenancyAgreement := evaluateTenancy reqs.tenancyAgreement
    (docsOfCategory documents .tenancy) applicantData

/-- The seven checklist items in `Object.entries` order. -/
def checklistItems (cs : DocumentChecklistStatus) : List ChecklistItem :=
  [cs.identity, cs.income, cs.bankStatements, cs.proofOfAddress,
   cs.welfareBenefit, cs.medicalEvidence, cs.tenancyAgreement]

/-- Loop body of `calculateOverallCompleteness`: accumulates
(totalWeight, achievedWeight). -/
def completenessStep (acc : ℚ × ℚ) (item : ChecklistItem) : ℚ × ℚ :=
  let weight : ℚ := if item.required then 2 else 1
  if !item.required && item.status == .missing then acc
  else
    (acc.1 + weight,
     acc.2 + match item.status with
       | .verified => weight
       | .pending => weight * 0.5
       | .issues => weight * 0.25
       | .missing => 0)

/-- `ChecklistService.calculateOverallCompleteness`. -/
def calculateOverallCompleteness (cs : DocumentChecklistStatus) : ℤ :=
  let (totalWeight, achievedWeight) := (checklistItems cs).foldl completenessStep (0, 0)
  if totalWeight > 0 then jsRound (achievedWeight / totalWeight * 100) else 0

/-- The `categoryNames` labels, paired with the items in entry order. -/
def checklistItemsWithLabels (cs : DocumentChecklistStatus) :
    List (ChecklistItem × String) :=
  [(cs.identity, "Identity document (passport or driving licence)"),
   (cs.income, "Proof of income (payslips or employment letter)"),
   (cs.bankStatements, "Bank statements (last 3 months)"),
   (cs.proofOfAddress, "Proof of current address"),
   (cs.welfareBenefit, "Benefits letter (if applicable)"),
   (cs.medicalEvidence, "Medical evidence (if applicable)"),
   (cs.tenancyAgreement, "Current tenancy agreement (if renting)")]

/-- `ChecklistService.getMissingDocuments`. -/
def getMissingDocuments (cs : DocumentChecklistStatus) : List String :=
  (checklistItemsWithLabels cs).filterMap (fun p =>
    if p.1.required && p.1.status == .missing then some p.2 else none)

/-! ### Application status derivation (`DocumentService.updateApplicationChecklist`) -/

/-- The application statuses the checklist refresh can assign. -/
inductive ApplicationStatus
  | documents_pending | documents_review | eligibility_check
deriving DecidableEq, Repr

/-- `DocumentService.updateApplicationChecklist`, restricted to its pure
content: evaluate the checklist over the case's current documents, then derive
the new application status.  Both the document-pipeline run (`processDocument`
step 3) and `deleteDocument` end by calling this. -/
def updateApplicationChecklist (reqs : ChecklistRequirements) (env : DateEnv)
    (documents : List Document) (applicantData : Option ApplicantData) :
    DocumentChecklistStatus × ApplicationStatus :=
  let checklistStatus := evaluateChecklist reqs env documents applicantData
  let completeness := calculateOverallCompleteness checklistStatus
  let missingDocs := getMissingDocuments checklistStatus
  (checklistStatus,
   if missingDocs.length > 0 then .documents_pending
   else if completeness < 100 then .documents_review
   else .eligibility_check)

/-! ### Classification aggregation (`ClassificationService`) -/

/-- `ClassificationResult` (the fields the aggregation reads and writes). -/
structure ClassificationResult where
  category : DocumentCategory
  confidence : ℚ
  subtype : Option String := none
  reasoning : String := ""
  alternativeCategories : Option (List (DocumentCategory × ℚ)) := none
deriving DecidableEq, Repr

/-- One step of building `categoryScores`: a JavaScript `Map` keeps insertion
order, and `set` on an existing key updates in place. -/
def addScore (m : List (DocumentCategory × ℚ)) (c : DocumentCategory) (q : ℚ) :
    List (DocumentCategory × ℚ) :=
  if m.any (fun p => p.1 == c) then
    m.map (fun p => if p.1 == c then (p.1, p.2 + q) else p)
  else m ++ [(c, q)]

/-- The per-category summed confidences, in `Map` iteration
(= insertion) order. -/
def categoryScores (results : List ClassificationResult) :
    List (DocumentCategory × ℚ) :=
  results.foldl (fun m r => addScore m r.category r.confidence) []

/-- The `bestCategory`/`bestScore` fold (strict improvement, starting from
`('unknown', 0)`). -/
def bestOf (m : List (DocumentCategory × ℚ)) : DocumentCategory × ℚ :=
  m.foldl (fun bs p => if p.2 > bs.2 then p else bs) (.unknown, 0)

/-- Stable descending sort by the projection `f`, as JavaScript's stable
`Array.prototype.sort((a, b) => f(b) - f(a))`. -/
def sortByDesc {α : Type} (f : α → ℚ) (l : List α) : List α :=
  l.mergeSort (fun a b => f b ≤ f a)

/-- `ClassificationService.getAlternativeCategories`. -/
def getAlternativeCategories (scores : List (DocumentCategory × ℚ))
    (bestCategory : DocumentCategory) : List (DocumentCategory × ℚ) :=
  let alternatives := scores.filterMap (fun p =>
    if p.1 ≠ bestCategory ∧ p.2 > 0.3 then some (p.1, min p.2 1) else none)
  (sortByDesc Prod.snd alternatives).take 2

/-- `ClassificationService.aggregateClassifications`.  With an empty winning
group JavaScript would produce `NaN` (0/0); in ℚ the division yields 0 — the
claims proved below never touch that case. -/
def aggregateClassifications (results : List ClassificationResult) :
    ClassificationResult :=
  let scores := categoryScores results
  let best := bestOf scores
  let bestCategory := best.1
  let relevantResults := results.filter (fun r => r.category == bestCategory)
  let avgConfidence :=
    (relevantResults.map (·.confidence)).sum / (relevantResults.length : ℚ)
  let bestResult := (sortByDesc (·.confidence) relevantResults).head?
  { category := bestCategory
    confidence := avgConfidence
    subtype := bestResult.bind (·.subtype)
    reasoning := "Aggregated from " ++ natToDec results.length ++ " pages. "
      ++ (match bestResult with | some r => r.reasoning | none => "")
    alternativeCategories := some (getAlternativeCategories scores bestCategory) }

/-! ### Extraction stage (`ExtractionService`) -/

/-- `config.documents.extractionThreshold`. -/
def extractionThreshold : ℚ := 0.6

/-- `config.documents.classificationThreshold`. -/
def classificationThreshold : ℚ := 0.7

/-- `REQUIRED_FIELDS` per category. -/
def REQUIRED_FIELDS : DocumentCategory → List String
  | .identity => ["fullName", "dateOfBirth", "documentNumber", "expiryDate"]
  | .income => ["employerName", "employeeName", "grossPay", "netPay", "payDate"]
  | .bank_statement => ["bankName", "accountHolder", "statementPeriodStart", "closingBalance"]
  | .welfare_benefit => ["benefitType", "recipientName", "awardAmount", "letterDate", "issuingBody"]
  | .medical => ["issuerName", "patientName", "letterDate"]
  | .tenancy => ["tenantName", "propertyAddress", "landlordName"]
  | .proof_of_address => ["recipientName", "address", "documentDate", "issuer"]
  | .other => ["documentDescription"]
  | .unknown => ["qualityIssues"]

/-- A raw JSON value of the model's extraction response:
`null/undefined`, an object carrying a `value` key, or any other value
(scalar; other shapes are stored as-is by the source's else-branch). -/
inductive RawValue
  | null
  | obj (value : FieldValue) (confidence : Option ℚ) (source : Option String)
      (issues : Option (List String))
  | scalar (v : FieldValue)
deriving DecidableEq, Repr

/-- `fieldData.confidence || 0.5`: JavaScript `||` replaces any falsy
confidence — absent or 0 — by the default. -/
def jsOrHalf : Option ℚ → ℚ
  | none => 0.5
  | some q => if q = 0 then 0.5 else q

/-- Per-value normalization inside `processExtractedFields`. -/
def processRawValue : RawValue → ExtractedField
  | .null => { value := .null, confidence := 0 }
  | .obj v c src iss =>
    { value := v, confidence := max 0 (min 1 (jsOrHalf c)), source := src, issues := iss }
  | .scalar v => { value := v, confidence := 0.7 }

/-- `ExtractionService.processExtractedFields`. -/
def processExtractedFields (rawExtraction : List (String × RawValue)) :
    List (String × ExtractedField) :=
  rawExtraction.map (fun p => (p.1, processRawValue p.2))

inductive Severity
  | error | warning
deriving DecidableEq, Repr

structure ExtractionIssue where
  field : String
  severity : Severity
  message : String
  suggestion : Option String := none
deriving DecidableEq, Repr

/-- `formatFieldName`: insert a space before each uppercase letter, replace
underscores by spaces, uppercase the first character, trim. -/
def formatFieldName (s : String) : String :=
  let cs := s.data.foldr (fun c acc => if c.isUpper then ' ' :: c :: acc else c :: acc) []
  let cs := cs.map (fun c => if c = '_' then ' ' else c)
  let cs := match cs with
    | [] => []
    | c :: t => c.toUpper :: t
  (String.mk cs).trim

/-- `getFieldSuggestion`. -/
def getFieldSuggestion (fieldName : String) (category : DocumentCategory) : String :=
  let table : List (String × String) :=
    match category with
    | .identity =>
      [("fullName", "Check the main page of the identity document"),
       ("dateOfBirth", "Usually found near the photo"),
       ("documentNumber", "Located at the top or bottom of the document"),
       ("expiryDate", "Check the document validity section")]
    | .income =>
      [("employerName", "Should be at the top of the payslip"),
       ("grossPay", "Look for \"Gross Pay\" or \"Total Earnings\""),
       ("netPay", "Look for \"Net Pay\" or \"Take Home Pay\"")]
    | .bank_statement =>
      [("bankName", "Usually in the header/logo area"),
       ("closingBalance", "Found at the end of the statement")]
    | .welfare_benefit =>
      [("awardAmount", "Look for the payment amount section"),
       ("benefitType", "Usually stated at the top of the letter")]
    | _ => []
  match table.find? (fun p => p.1 == fieldName) with
  | some p => p.2
  | none => "Please upload a clearer image of this section"

/-- Field lookup in the normalized field map (JavaScript object access). -/
def lookupField (fields : List (String × ExtractedField)) (name : String) :
    Option ExtractedField :=
  (fields.find? (fun p => p.1 == name)).map Prod.snd

/-- Loop body of `checkCompleteness` over the required fields: accumulates
(`filledRequired`, issue list). -/
def checkRequiredStep (threshold : ℚ) (fields : List (String × ExtractedField))
    (category : DocumentCategory) (acc : ℚ × List ExtractionIssue)
    (fieldName : String) : ℚ × List ExtractionIssue :=
  let (filled, issues) := acc
  let missingIssue : ExtractionIssue :=
    ⟨fieldName, .error,
     "Required field \"" ++ formatFieldName fieldName ++ "\" is missing",
     some (getFieldSuggestion fieldName category)⟩
  match lookupField fields fieldName with
  | none => (filled, issues ++ [missingIssue])
  | some fld =>
    if fld.value = .null ∨ fld.value = .str "" then
      (filled, issues ++ [missingIssue])
    else if fld.confidence < threshold then
      (filled + 0.5, issues ++
        [⟨fieldName, .warning,
          "Field \"" ++ formatFieldName fieldName ++ "\" has low confidence ("
            ++ toString (jsRound (fld.confidence * 100)) ++ "%)",
          some "Please verify this value manually"⟩])
    else (filled + 1, issues)

/-- Second loop of `checkCompleteness`: every field carrying its own issue
list contributes warning-level issues. -/
def ownIssuesStep (acc : List ExtractionIssue) (p : String × ExtractedField) :
    List ExtractionIssue :=
  match p.2.issues with
  | some l =>
    if l ≠ [] then
      acc ++ l.map (fun m => { field := p.1, severity := .warning, message := m })
    else acc
  | none => acc

structure CompletenessResult where
  completenessScore : ℤ
  issues : List ExtractionIssue
deriving DecidableEq, Repr

/-- `ExtractionService.checkCompleteness`. -/
def checkCompleteness (threshold : ℚ) (fields : List (String × ExtractedField))
    (requiredFields : List String) (category : DocumentCategory) :
    CompletenessResult :=
  let (filledRequired, issues1) :=
    requiredFields.foldl (checkRequiredStep threshold fields category) (0, [])
  let issues := fields.foldl ownIssuesStep issues1
  let totalRequired := requiredFields.length
  { completenessScore :=
      if totalRequired > 0 then
        jsRound (filledRequired / (totalRequired : ℚ) * 100)
      else 100
    issues := issues }

structure ExtractionResult where
  success : Bool
  documentType : DocumentCategory
  fields : List (String × ExtractedField)
  completenessScore : ℤ
  issues : List ExtractionIssue
deriving DecidableEq, Repr

/-- The model call's outcome as seen inside `extractDocument`'s `try` block:
`.error msg` for a thrown transport/parse error, `.ok none` for a response
with no content (which the source turns into a thrown
"No response from extraction model"), `.ok (some raw)` for a parsed JSON
object. -/
abbrev ModelResponse := Except String (Option (List (String × RawValue)))

/-- `ExtractionService.extractDocument` (a total function: every failure of
the model call is caught and converted into a failure result). -/
def extractDocument (threshold : ℚ) (category : DocumentCategory)
    (response : ModelResponse) : ExtractionResult :=
  match response with
  | .error e =>
    { success := false, documentType := category, fields := [],
      completenessScore := 0,
      issues := [⟨"_general", .error, "Extraction failed: " ++ e, none⟩] }
  | .ok none =>
    { success := false, documentType := category, fields := [],
      completenessScore := 0,
      issues := [⟨"_general", .error,
        "Extraction failed: " ++ "No response from extraction model", none⟩] }
  | .ok (some rawExtraction) =>
    let fields := processExtractedFields rawExtraction
    let r := checkCompleteness threshold fields (REQUIRED_FIELDS category) category
    { success := true, documentType := category, fields := fields,
      completenessScore := r.completenessScore, issues := r.issues }

/-! ### Reference numbers (`ApplicationRepository.generateReferenceNumber`) -/

/-- The `sequences` table: rows (name, current_value). -/
structure SeqState where
  counters : List (String × Nat)
deriving DecidableEq, Repr

def SeqState.lookup (st : SeqState) (name : String) : Option Nat :=
  (st.counters.find? (fun p => p.1 == name)).map Prod.snd

/-- The transaction body: `UPDATE ... SET current_value = current_value + 1
WHERE name = ?`; if no row changed, `INSERT ... VALUES (?, 1)` and return 1,
else `SELECT current_value`. -/
def getNextSequence (st : SeqState) (name : String) : SeqState × Nat :=
  if st.counters.any (fun p => p.1 == name) then
    let counters := st.counters.map (fun p =>
      if p.1 == name then (p.1, p.2 + 1) else p)
    (⟨counters⟩, ((⟨counters⟩ : SeqState).lookup name).getD 0)
  else
    (⟨st.counters ++ [(name, 1)]⟩, 1)

/-- The per-year sequence name `ref_number_<year>`. -/
def seqName (year : Nat) : String := "ref_number_" ++ natToDec year

/-- `SH-<year>-<zero-padded sequence>`. -/
def refStr (year n : Nat) : String :=
  "SH-" ++ natToDec year ++ "-" ++ pad4 (natToDec n)

/-- `generateReferenceNumber` for a fixed year (the year comes from the wall
clock in the source). -/
def generateReferenceNumber (st : SeqState) (year : Nat) : SeqState × String :=
  let sequenceName := seqName year
  let (st2, sequenceNumber) := getNextSequence st sequenceName
  (st2, refStr year sequenceNumber)

/-- `N` sequential case creations: the reference numbers generated, in
order. -/
def generateRefs (st : SeqState) (year : Nat) : Nat → SeqState × List String
  | 0 => (st, [])
  | n + 1 =>
    let (st1, r) := generateReferenceNumber st year
    let (st2, rs) := generateRefs st1 year n
    (st2, r :: rs)

/-! ### Spec-side definitions

Each definition below follows the wording of a claim (or of its amendment)
rather than the source; the theorems compare them with the embedded
definitions above. -/

/-- Weight of a checklist item per the spec: required 2, optional 1. -/
def itemWeight (item : ChecklistItem) : ℚ := if item.required then 2 else 1

/-- Achieved credit per the spec: verified full weight, pending half, issues a
quarter, missing zero. -/
def itemCredit (item : ChecklistItem) : ℚ :=
  itemWeight item *
    match item.status with
    | .verified => 1
    | .pending => 1/2
    | .issues => 1/4
    | .missing => 0

/-- The items that count toward completeness: optional missing items are
excluded from both numerator and denominator. -/
def countedItems (cs : DocumentChecklistStatus) : List ChecklistItem :=
  (checklistItems cs).filter (fun i => i.required || !(i.status == .missing))

/-- Overall completeness as the claim words it:
`round(100 × achievedWeight / totalWeight)`, `0` when `totalWeight` is 0. -/
def specOverallCompleteness (cs : DocumentChecklistStatus) : ℤ :=
  let total := ((countedItems cs).map itemWeight).sum
  let achieved := ((countedItems cs).map itemCredit).sum
  if total = 0 then 0 else jsRound (100 * achieved / total)

/-- Points earned by one required field per the claim: 1 if present
(non-null, non-empty string) with confidence ≥ threshold, 0.5 if present
below threshold, 0 if missing. -/
def specFieldPoints (threshold : ℚ) (fields : List (String × ExtractedField))
    (fieldName : String) : ℚ :=
  match lookupField fields fieldName with
  | none => 0
  | some fld =>
    if fld.value = .null ∨ fld.value = .str "" then 0
    else if fld.confidence < threshold then 0.5
    else 1

/-- Completeness score as the claim words it:
`round(100 × points / requiredFieldCount)`, 100 when there are no required
fields. -/
def specCompletenessScore (threshold : ℚ) (fields : List (String × ExtractedField))
    (requiredFields : List String) : ℤ :=
  if requiredFields.length = 0 then 100
  else jsRound (100 * (requiredFields.map (specFieldPoints threshold fields)).sum
    / (requiredFields.length : ℚ))

/-- The issue the required-field loop of `checkCompleteness` emits for one
required field, if any. -/
def reqIssueOf (threshold : ℚ) (fields : List (String × ExtractedField))
    (category : DocumentCategory) (fieldName : String) : Option ExtractionIssue :=
  let missingIssue : ExtractionIssue :=
    ⟨fieldName, .error,
     "Required field \"" ++ formatFieldName fieldName ++ "\" is missing",
     some (getFieldSuggestion fieldName category)⟩
  match lookupField fields fieldName with
  | none => some missingIssue
  | some fld =>
    if fld.value = .null ∨ fld.value = .str "" then some missingIssue
    else if fld.confidence < threshold then
      some ⟨fieldName, .warning,
        "Field \"" ++ formatFieldName fieldName ++ "\" has low confidence ("
          ++ toString (jsRound (fld.confidence * 100)) ++ "%)",
        some "Please verify this value manually"⟩
    else none

/-- The warning issues one field's own issue list contributes. -/
def ownIssuesOf (p : String × ExtractedField) : List ExtractionIssue :=
  match p.2.issues with
  | some l => l.map (fun m => { field := p.1, severity := .warning, message := m })
  | none => []

/-- Field normalization as the original claim words it: the default 0.5 is
used only when the confidence is absent, so a self-reported confidence of 0
stays 0. -/
def specNormalizeClaimed : RawValue → ExtractedField
  | .null => { value := .null, confidence := 0 }
  | .obj v c src iss =>
    { value := v
      confidence := match c with
        | none => 0.5
        | some q => max 0 (min 1 q)
      source := src, issues := iss }
  | .scalar v => { value := v, confidence := 0.7 }

/-- Field normalization as amended: the default 0.5 is used when the
confidence is absent or equal to 0 (JavaScript `||` on a falsy value). -/
def specNormalizeAmended : RawValue → ExtractedField
  | .null => { value := .null, confidence := 0 }
  | .obj v c src iss =>
    { value := v
      confidence := match c with
        | none => 0.5
        | some q => if q = 0 then 0.5 else max 0 (min 1 q)
      source := src, issues := iss }
  | .scalar v => { value := v, confidence := 0.7 }

/-- The categories of a result list in order of first appearance (the
iteration order of the JavaScript `Map` of summed scores). -/
def firstOccurrences (results : List ClassificationResult) : List DocumentCategory :=
  results.foldl (fun acc r => if r.category ∈ acc then acc else acc ++ [r.category]) []

/-- Summed confidence of one category across all pages. -/
def catScore (results : List ClassificationResult) (c : DocumentCategory) : ℚ :=
  ((results.filter (fun r => r.category == c)).map (·.confidence)).sum

/-- The winning category as amended: the category with the highest summed
confidence, ties broken by order of first appearance in the page list; if no
category has a strictly positive summed score the winner is `unknown`. -/
def specWinner (results : List ClassificationResult) : DocumentCategory :=
  let cats := firstOccurrences results
  let best := (cats.map (catScore results)).foldr max 0
  if best = 0 then .unknown
  else ((cats.find? (fun c => catScore results c == best)).getD .unknown)

/-- The enum declaration order of the claim's tie-break. -/
def enumOrder : List DocumentCategory :=
  [.identity, .income, .bank_statement, .welfare_benefit, .medical,
   .tenancy, .proof_of_address, .other, .unknown]

/-- The winning category as the original claim words it: highest summed
confidence, ties broken by enum declaration order (first match wins). -/
def specWinnerClaimed (results : List ClassificationResult) : DocumentCategory :=
  let best := ((enumOrder.map (catScore results)).foldr max 0)
  (enumOrder.find? (fun c => catScore results c == best)).getD .unknown

/-! ### Concrete inputs used by counterexamples, examples and witnesses -/

/-- An identity document whose extracted `expiryDate` is the (day-count)
string "40": expired at time 50, valid at time 30. -/
def expiryDoc : Document where
  id := "doc-identity-1"
  originalFileName := "passport.pdf"
  category := .identity
  processingStatus := .completed
  classificationConfidence := 0.9
  completenessScore := 90
  extractedData := some ⟨[("expiryDate", ⟨.str "40", 0.9, none, none⟩)]⟩

/-- A date environment at time `t` whose parser reads decimal day counts. -/
def dayEnv (t : Int) : DateEnv where
  now := t
  parseDate := fun s => some (decodeDec s.data : Int)
  subMonths := fun x m => x - 31 * (m : Int)

/-- A date environment whose parser fails on everything. -/
def blindEnv (t : Int) : DateEnv where
  now := t
  parseDate := fun _ => none
  subMonths := fun x m => x - 31 * (m : Int)

/-- An income document with no extracted date fields. -/
def incomeDoc : Document where
  id := "doc-income-1"
  originalFileName := "payslip.pdf"
  category := .income
  processingStatus := .completed
  classificationConfidence := 0.9
  completenessScore := 95

/-- A fully-extracted medical document with completeness score 0. -/
def medicalDoc : Document where
  id := "doc-medical-1"
  originalFileName := "gp-letter.pdf"
  category := .medical
  processingStatus := .completed
  classificationConfidence := 0.9
  completenessScore := 0

/-- A document classified `other`. -/
def otherDoc : Document where
  id := "doc-other-1"
  originalFileName := "misc.pdf"
  category := .other
  processingStatus := .completed
  classificationConfidence := 0.9
  completenessScore := 0

/-- The checklist of the claim's completeness example: one required verified
item, one optional missing item, one required pending item (the remaining
four slots optional missing, hence excluded). -/
def exampleChecklist : DocumentChecklistStatus where
  identity := ⟨true, .verified, ["doc-identity-1"], none⟩
  income := ⟨false, .missing, [], none⟩
  bankStatements := ⟨true, .pending, ["doc-bank-1"], none⟩
  proofOfAddress := ⟨false, .missing, [], none⟩
  welfareBenefit := ⟨false, .missing, [], none⟩
  medicalEvidence := ⟨false, .missing, [], none⟩
  tenancyAgreement := ⟨false, .missing, [], none⟩

/-- The claim's extraction example: 4 required fields, two fully present, one
present below the 0.6 threshold, one missing. -/
def exampleFields : List (String × ExtractedField) :=
  [("fullName", ⟨.str "Jane Doe", 0.9, none, none⟩),
   ("dateOfBirth", ⟨.str "1990-01-01", 0.8, none, none⟩),
   ("documentNumber", ⟨.str "X1234567", 0.3, none, none⟩),
   ("expiryDate", ⟨.null, 0, none, none⟩)]

/-- The claim's aggregation example:
`[{welfare_benefit,0.4},{welfare_benefit,0.5},{income,0.3}]`. -/
def examplePages : List ClassificationResult :=
  [{ category := .welfare_benefit, confidence := 0.4, subtype := some "uc_letter",
     reasoning := "page 1" },
   { category := .welfare_benefit, confidence := 0.5, subtype := some "hb_letter",
     reasoning := "page 2" },
   { category := .income, confidence := 0.3, subtype := some "payslip",
     reasoning := "page 3" }]

/-- Two pages with tied summed confidences, `income` appearing first: enum
declaration order would pick `identity`, the code picks `income`. -/
def tiedPages : List ClassificationResult :=
  [{ category := .income, confidence := 0.5, reasoning := "page 1" },
   { category := .identity, confidence := 0.5, reasoning := "page 2" }]

/-- A fully-processed document with no extracted date fields. -/
def simpleDoc (id : String) (cat : DocumentCategory) : Document where
  id := id
  originalFileName := id ++ ".pdf"
  category := cat
  processingStatus := .completed
  classificationConfidence := 0.9
  completenessScore := 95

/-- A document set whose checklist comes out fully verified: one identity
document, three income documents, three bank statements, one proof of
address. -/
def verifiedDocs : List Document :=
  [simpleDoc "d-id" .identity,
   simpleDoc "d-in1" .income, simpleDoc "d-in2" .income, simpleDoc "d-in3" .income,
   simpleDoc "d-bk1" .bank_statement, simpleDoc "d-bk2" .bank_statement,
   simpleDoc "d-bk3" .bank_statement,
   simpleDoc "d-poa" .proof_of_address]

/-- The checklist `verifiedDocs` evaluates to. -/
def verifiedChecklist : DocumentChecklistStatus where
  identity := ⟨true, .verified, ["d-id"], none⟩
  income := ⟨true, .verified, ["d-in1", "d-in2", "d-in3"], none⟩
  bankStatements := ⟨true, .verified, ["d-bk1", "d-bk2", "d-bk3"], none⟩
  proofOfAddress := ⟨true, .verified, ["d-poa"], none⟩
  welfareBenefit := ⟨false, .missing, [], none⟩
  medicalEvidence := ⟨false, .missing, [], none⟩
  tenancyAgreement := ⟨false, .missing, [], none⟩

/-! ## Theorems -/

/-! ### Decimal printing -/

theorem decodeDec_append (l₁ l₂ : List Char) :
    decodeDec (l₁ ++ l₂) = (l₂.foldl (fun a c => a * 10 + (c.toNat - 48)) (decodeDec l₁)) := by
  simp [decodeDec, List.foldl_append]

theorem decAux_acc (f n : Nat) (acc : List Char) (h : n < f) :
    decAux f n acc = decAux f n [] ++ acc := by
  induction f generalizing n acc with
  | zero => omega
  | succ f ih =>
    by_cases h10 : n < 10
    · simp [decAux, h10]
    · have hd : n / 10 < f := by
        have : n / 10 < n := Nat.div_lt_self (by omega) (by omega)
        omega
      have e1 : decAux (f + 1) n acc = decAux f (n / 10) (digitChar (n % 10) :: acc) := by
        simp [decAux, h10]
      have e2 : decAux (f + 1) n [] = decAux f (n / 10) (digitChar (n % 10) :: []) := by
        simp [decAux, h10]
      rw [e1, e2, ih _ _ hd, ih _ (digitChar (n % 10) :: []) hd]
      simp

theorem decAux_fuel (f f' n : Nat) (h : n < f) (h' : n < f') :
    decAux f n [] = decAux f' n [] := by
  induction f generalizing f' n with
  | zero => omega
  | succ f ih =>
    cases f' with
    | zero => omega
    | succ f' =>
      by_cases h10 : n < 10
      · simp [decAux, h10]
      · have hlt : n / 10 < n := Nat.div_lt_self (by omega) (by omega)
        have e1 : decAux (f + 1) n [] = decAux f (n / 10) (digitChar (n % 10) :: []) := by
          simp [decAux, h10]
        have e2 : decAux (f' + 1) n [] = decAux f' (n / 10) (digitChar (n % 10) :: []) := by
          simp [decAux, h10]
        rw [e1, e2, decAux_acc f _ _ (by omega), decAux_acc f' _ _ (by omega),
            ih f' (n / 10) (by omega) (by omega)]

theorem decAux_eq_append (f n : Nat) (acc : List Char) (h : n < f) :
    decAux f n acc = decAux (n + 1) n [] ++ acc := by
  rw [decAux_acc f n acc h, decAux_fuel f (n + 1) n h (Nat.lt_succ_self n)]

theorem decodeDec_digitChar (d : Nat) (h : d < 10) :
    (digitChar d).toNat - 48 = d := by
  interval_cases d <;> decide

theorem decodeDec_natToDec (n : Nat) : decodeDec (decAux (n + 1) n []) = n := by
  induction n using Nat.strong_induction_on with
  | _ n ih =>
    by_cases h10 : n < 10
    · simp [decAux, h10, decodeDec, decodeDec_digitChar n h10]
    · have step : decAux (n + 1) n [] = decAux n (n / 10) [digitChar (n % 10)] := by
        cases n with
        | zero => omega
        | succ m => simp [decAux, h10]
      have hlt : n / 10 < n := Nat.div_lt_self (by omega) (by omega)
      rw [step, decAux_eq_append n (n / 10) [digitChar (n % 10)] (by omega),
          decodeDec_append]
      have := ih (n / 10) hlt
      simp only [List.foldl_cons, List.foldl_nil]
      rw [this, decodeDec_digitChar (n % 10) (Nat.mod_lt _ (by omega))]
      omega

/-- Padding with leading `'0'` does not change the decoded value. -/
theorem decodeDec_replicate_zero (k : Nat) (l : List Char) :
    decodeDec (List.replicate k '0' ++ l) = decodeDec l := by
  induction k with
  | zero => simp
  | succ k ih =>
    simpa [List.replicate_succ, decodeDec] using ih

/-- Decoding inverts the padded decimal printer. -/
theorem decodeDec_pad4_natToDec (n : Nat) :
    decodeDec (pad4 (natToDec n)).data = n := by
  by_cases h : (natToDec n).length < 4
  · have : (pad4 (natToDec n)).data
        = List.replicate (4 - (natToDec n).length) '0' ++ (natToDec n).data := by
      simp [pad4, h, String.data]
    rw [this, decodeDec_replicate_zero]
    simpa [natToDec] using decodeDec_natToDec n
  · have : (pad4 (natToDec n)).data = (natToDec n).data := by simp [pad4, h]
    rw [this]
    simpa [natToDec] using decodeDec_natToDec n


/-! ### C5: overall completeness -/

theorem foldl_completenessStep (l : List ChecklistItem) (a b : ℚ) :
    l.foldl completenessStep (a, b) =
      (a + ((l.filter (fun i => i.required || !(i.status == .missing))).map itemWeight).sum,
       b + ((l.filter (fun i => i.required || !(i.status == .missing))).map itemCredit).sum) := by
  induction l generalizing a b with
  | nil => simp
  | cons i t ih =>
    cases hr : i.required <;> cases hs : i.status <;>
      simp [completenessStep, itemWeight, itemCredit, hr, hs, ih, List.filter_cons] <;>
      ring_nf <;> simp

theorem itemWeight_nonneg (i : ChecklistItem) : 0 ≤ itemWeight i := by
  unfold itemWeight; split <;> norm_num

theorem calculateOverallCompleteness_eq_spec (cs : DocumentChecklistStatus) :
    calculateOverallCompleteness cs = specOverallCompleteness cs := by
  unfold calculateOverallCompleteness specOverallCompleteness countedItems
  rw [foldl_completenessStep]
  simp only [zero_add]
  have hnn : 0 ≤ (((checklistItems cs).filter
      (fun i => i.required || !(i.status == ChecklistItemStatus.missing))).map itemWeight).sum :=
    List.sum_nonneg (by
      intro x hx
      obtain ⟨i, _, rfl⟩ := List.mem_map.mp hx
      exact itemWeight_nonneg i)
  rcases eq_or_lt_of_le hnn with h0 | hpos
  · rw [if_neg (by rw [← h0]; exact lt_irrefl 0), if_pos h0.symm]
  · rw [if_pos hpos, if_neg hpos.ne']
    congr 1
    field_simp
    ring

/-- C5: `calculateOverallCompleteness` equals
`round(100 × achievedWeight / totalWeight)` where required items weigh 2 and
optional items 1, optional missing items are excluded from both sums,
verified earns full weight, pending half, issues a quarter, required missing
zero, and the result is 0 when the total weight is 0; on the claim's example
(one required verified, one optional missing, one required pending item, the
four remaining optional slots missing) it gives 75. -/
theorem claim_c5_overall_completeness :
    (∀ cs : DocumentChecklistStatus,
      calculateOverallCompleteness cs = specOverallCompleteness cs)
    ∧ calculateOverallCompleteness exampleChecklist = 75 := by
  refine ⟨calculateOverallCompleteness_eq_spec, ?_⟩
  norm_num [calculateOverallCompleteness, checklistItems, completenessStep,
    exampleChecklist, jsRound]

/-! ### C4: extracted-field normalization -/

/-- C4 counterexample: an extracted field object that self-reports
confidence 0 is normalized to confidence 0.5 (JavaScript `||` treats 0 as
falsy), not to the claimed 0. -/
theorem claim_c4_counterexample :
    processRawValue (.obj (.str "Jane") (some 0) none none)
      ≠ specNormalizeClaimed (.obj (.str "Jane") (some 0) none none) := by
  intro h
  have hc := congrArg ExtractedField.confidence h
  simp only [processRawValue, specNormalizeClaimed, jsOrHalf, if_pos rfl] at hc
  norm_num at hc

/-- C4 (amended: the 0.5 default applies when the self-reported confidence is
absent or 0): normalization maps `null` to `{value: null, confidence: 0}`, a
`{value, confidence?, source?, issues?}` object to the same value with
confidence clamped to [0,1] and defaulted to 0.5 when absent or 0, and any
other scalar to `{value: scalar, confidence: 0.7}`. -/
theorem claim_c4_normalization :
    (∀ r : RawValue, processRawValue r = specNormalizeAmended r)
    ∧ ∀ raw, processExtractedFields raw
        = raw.map (fun p => (p.1, specNormalizeAmended p.2)) := by
  have h : ∀ r : RawValue, processRawValue r = specNormalizeAmended r := by
    intro r
    cases r with
    | null => rfl
    | scalar v => rfl
    | obj v c src iss =>
      cases c with
      | none =>
        simp only [processRawValue, specNormalizeAmended, jsOrHalf]
        norm_num
      | some q =>
        by_cases hq : q = 0
        · subst hq
          simp only [processRawValue, specNormalizeAmended, jsOrHalf, if_pos rfl]
          norm_num
        · simp only [processRawValue, specNormalizeAmended, jsOrHalf, if_neg hq]
  exact ⟨h, fun raw => by
    unfold processExtractedFields
    exact List.map_congr_left (fun p _ => by rw [h p.2])⟩

/-! ### C8: extraction failure path -/

/-- C8: when the model call fails (throws with message `e`, or returns no
content), `extractDocument` returns exactly
`{success: false, documentType: category, fields: {}, completenessScore: 0,
issues: [{field: "_general", severity: error, message}]}` whose message
contains the failure message, and—being a total function—never propagates
the exception. -/
theorem claim_c8_extraction_failure :
    ∀ (threshold : ℚ) (category : DocumentCategory) (e : String),
      extractDocument threshold category (.error e)
        = { success := false, documentType := category, fields := [],
            completenessScore := 0,
            issues := [⟨"_general", .error, "Extraction failed: " ++ e, none⟩] }
      ∧ extractDocument threshold category (.ok none)
        = { success := false, documentType := category, fields := [],
            completenessScore := 0,
            issues := [⟨"_general", .error,
              "Extraction failed: No response from extraction model", none⟩] }
      ∧ ∃ pre, "Extraction failed: " ++ e = pre ++ e :=
  fun _ _ _e => ⟨rfl, rfl, "Extraction failed: ", rfl⟩

/-! ### C3: extraction completeness scoring -/

theorem foldl_checkRequiredStep (threshold : ℚ) (fields : List (String × ExtractedField))
    (category : DocumentCategory) (l : List String) (a : ℚ) (is : List ExtractionIssue) :
    l.foldl (checkRequiredStep threshold fields category) (a, is) =
      (a + (l.map (specFieldPoints threshold fields)).sum,
       is ++ l.filterMap (reqIssueOf threshold fields category)) := by
  induction l generalizing a is with
  | nil => simp
  | cons f t ih =>
    simp only [List.foldl_cons, List.map_cons, List.sum_cons, List.filterMap_cons]
    rcases hx : lookupField fields f with _ | fld
    · simp only [checkRequiredStep, hx, reqIssueOf, specFieldPoints]
      rw [ih]
      simp
    · by_cases hmiss : fld.value = .null ∨ fld.value = .str ""
      · simp only [checkRequiredStep, hx, reqIssueOf, specFieldPoints, if_pos hmiss]
        rw [ih]
        simp
      · by_cases hconf : fld.confidence < threshold
        · simp only [checkRequiredStep, hx, reqIssueOf, specFieldPoints,
            if_neg hmiss, if_pos hconf]
          rw [ih]
          simp
          ring
        · simp only [checkRequiredStep, hx, reqIssueOf, specFieldPoints,
            if_neg hmiss, if_neg hconf]
          rw [ih]
          simp
          ring

theorem ownIssuesStep_eq (acc : List ExtractionIssue) (p : String × ExtractedField) :
    ownIssuesStep acc p = acc ++ ownIssuesOf p := by
  unfold ownIssuesStep ownIssuesOf
  rcases hp : p.2.issues with _ | l
  · simp
  · by_cases hl : l = []
    · subst hl; simp
    · simp [hl]

theorem foldl_ownIssuesStep (l : List (String × ExtractedField))
    (acc : List ExtractionIssue) :
    l.foldl ownIssuesStep acc = acc ++ (l.map ownIssuesOf).flatten := by
  induction l generalizing acc with
  | nil => simp
  | cons p t ih => simp [ownIssuesStep_eq, ih]

theorem checkCompleteness_issues_eq (threshold : ℚ)
    (fields : List (String × ExtractedField)) (requiredFields : List String)
    (category : DocumentCategory) :
    (checkCompleteness threshold fields requiredFields category).issues =
      requiredFields.filterMap (reqIssueOf threshold fields category)
        ++ (fields.map ownIssuesOf).flatten := by
  simp only [checkCompleteness, foldl_checkRequiredStep, foldl_ownIssuesStep,
    List.nil_append, zero_add]

theorem checkCompleteness_score_eq_spec (threshold : ℚ)
    (fields : List (String × ExtractedField)) (requiredFields : List String)
    (category : DocumentCategory) :
    (checkCompleteness threshold fields requiredFields category).completenessScore
      = specCompletenessScore threshold fields requiredFields := by
  simp only [checkCompleteness, specCompletenessScore, foldl_checkRequiredStep,
    List.nil_append, zero_add]
  rcases Nat.eq_zero_or_pos requiredFields.length with h0 | hpos
  · rw [if_neg (by omega), if_pos h0]
  · rw [if_pos hpos, if_neg (by omega)]
    congr 1
    have : (requiredFields.length : ℚ) ≠ 0 := by
      exact_mod_cast Nat.pos_iff_ne_zero.mp hpos
    field_simp
    ring

/-- C3: the extraction completeness score equals
`round(100 × points / requiredFieldCount)` with 1 point for a required field
present (non-null, non-empty) at confidence ≥ threshold, 0.5 for one present
below threshold (with a warning issue emitted), 0 for a missing one (with an
error issue emitted); a category with no required fields scores 100; and the
claim's example (4 required fields: two fully present, one below threshold,
one missing) scores 63. -/
theorem claim_c3_completeness_scoring :
    (∀ (threshold : ℚ) (fields : List (String × ExtractedField))
       (req : List String) (cat : DocumentCategory),
      (checkCompleteness threshold fields req cat).completenessScore
        = specCompletenessScore threshold fields req)
    ∧ (∀ (threshold : ℚ) fields (req : List String) cat f, f ∈ req →
        specFieldPoints threshold fields f = 0 →
        ∃ i ∈ (checkCompleteness threshold fields req cat).issues,
          i.field = f ∧ i.severity = .error)
    ∧ (∀ (threshold : ℚ) fields (req : List String) cat f, f ∈ req →
        specFieldPoints threshold fields f = 1/2 →
        ∃ i ∈ (checkCompleteness threshold fields req cat).issues,
          i.field = f ∧ i.severity = .warning)
    ∧ (checkCompleteness extractionThreshold exampleFields
        (REQUIRED_FIELDS .identity) .identity).completenessScore = 63 := by
  refine ⟨checkCompleteness_score_eq_spec, ?_, ?_, ?_⟩
  · intro thr fields req cat f hf hp
    rw [checkCompleteness_issues_eq]
    rcases hx : lookupField fields f with _ | fld
    · have hi : reqIssueOf thr fields cat f = some
          ⟨f, .error, "Required field \"" ++ formatFieldName f ++ "\" is missing",
           some (getFieldSuggestion f cat)⟩ := by
        simp [reqIssueOf, hx]
      exact ⟨_, List.mem_append_left _ (List.mem_filterMap.mpr ⟨f, hf, hi⟩), rfl, rfl⟩
    · simp only [specFieldPoints, hx] at hp
      by_cases hmiss : fld.value = .null ∨ fld.value = .str ""
      · have hi : reqIssueOf thr fields cat f = some
            ⟨f, .error, "Required field \"" ++ formatFieldName f ++ "\" is missing",
             some (getFieldSuggestion f cat)⟩ := by
          simp [reqIssueOf, hx, hmiss]
        exact ⟨_, List.mem_append_left _ (List.mem_filterMap.mpr ⟨f, hf, hi⟩), rfl, rfl⟩
      · by_cases hconf : fld.confidence < thr
        · rw [if_neg hmiss, if_pos hconf] at hp
          norm_num at hp
        · rw [if_neg hmiss, if_neg hconf] at hp
          norm_num at hp
  · intro thr fields req cat f hf hp
    rw [checkCompleteness_issues_eq]
    rcases hx : lookupField fields f with _ | fld
    · simp only [specFieldPoints, hx] at hp
      norm_num at hp
    · simp only [specFieldPoints, hx] at hp
      by_cases hmiss : fld.value = .null ∨ fld.value = .str ""
      · rw [if_pos hmiss] at hp; norm_num at hp
      · by_cases hconf : fld.confidence < thr
        · have hi : reqIssueOf thr fields cat f = some
              ⟨f, .warning,
               "Field \"" ++ formatFieldName f ++ "\" has low confidence ("
                 ++ toString (jsRound (fld.confidence * 100)) ++ "%)",
               some "Please verify this value manually"⟩ := by
            simp [reqIssueOf, hx, hmiss, hconf]
          exact ⟨_, List.mem_append_left _ (List.mem_filterMap.mpr ⟨f, hf, hi⟩), rfl, rfl⟩
        · rw [if_neg hmiss, if_neg hconf] at hp; norm_num at hp
  · rw [checkCompleteness_score_eq_spec]
    have l1 : lookupField exampleFields "fullName"
        = some ⟨.str "Jane Doe", 0.9, none, none⟩ := rfl
    have l2 : lookupField exampleFields "dateOfBirth"
        = some ⟨.str "1990-01-01", 0.8, none, none⟩ := rfl
    have l3 : lookupField exampleFields "documentNumber"
        = some ⟨.str "X1234567", 0.3, none, none⟩ := rfl
    have l4 : lookupField exampleFields "expiryDate"
        = some ⟨.null, 0, none, none⟩ := rfl
    have h1 : ¬(FieldValue.str "Jane Doe" = .null ∨ FieldValue.str "Jane Doe" = .str "") := by
      decide
    have h2 : ¬(FieldValue.str "1990-01-01" = .null ∨ FieldValue.str "1990-01-01" = .str "") := by
      decide
    have h3 : ¬(FieldValue.str "X1234567" = .null ∨ FieldValue.str "X1234567" = .str "") := by
      decide
    simp only [specCompletenessScore, specFieldPoints, REQUIRED_FIELDS,
      List.length_cons, List.length_nil, List.map_cons, List.map_nil,
      List.sum_cons, List.sum_nil, l1, l2, l3, l4, h1, h2, h3,
      if_neg h1, if_neg h2, if_neg h3, extractionThreshold]
    norm_num [jsRound]

/-- C3 witness: the example's `expiryDate` field is required, missing
(null-valued), earns 0 points, and the completeness check emits an
error-severity issue for it. -/
theorem claim_c3_witness :
    "expiryDate" ∈ REQUIRED_FIELDS .identity
    ∧ specFieldPoints extractionThreshold exampleFields "expiryDate" = 0
    ∧ ∃ i ∈ (checkCompleteness extractionThreshold exampleFields
        (REQUIRED_FIELDS .identity) .identity).issues,
        i.field = "expiryDate" ∧ i.severity = .error := by
  have h1 : "expiryDate" ∈ REQUIRED_FIELDS .identity := by decide
  have h2 : specFieldPoints extractionThreshold exampleFields "expiryDate" = 0 := by
    simp [specFieldPoints, lookupField, exampleFields, List.find?]
  exact ⟨h1, h2,
    claim_c3_completeness_scoring.2.1 extractionThreshold exampleFields
      (REQUIRED_FIELDS .identity) .identity "expiryDate" h1 h2⟩

/-! ### C6: application status derivation -/

theorem getMissingDocuments_ne_nil_iff (cs : DocumentChecklistStatus) :
    getMissingDocuments cs ≠ [] ↔
      ∃ i ∈ checklistItems cs, i.required = true ∧ i.status = .missing := by
  rw [Ne, getMissingDocuments, List.filterMap_eq_nil_iff]
  push_neg
  constructor
  · rintro ⟨p, hp, hne⟩
    refine ⟨p.1, ?_, ?_⟩
    · exact (List.mem_map_of_mem Prod.fst hp : p.1 ∈ checklistItems cs)
    · by_contra hq
      apply hne
      have hcond : ¬(p.1.required && p.1.status == ChecklistItemStatus.missing) = true := by
        simp only [Bool.and_eq_true, beq_iff_eq]
        exact hq
      rw [if_neg hcond]
  · rintro ⟨i, hi, hreq, hmiss⟩
    have hi' : i ∈ (checklistItemsWithLabels cs).map Prod.fst := hi
    obtain ⟨p, hp, hpe⟩ := List.mem_map.mp hi'
    refine ⟨p, hp, ?_⟩
    rw [if_pos (by simp [hpe, hreq, hmiss])]
    simp

/-- C6: the application status assigned by the checklist refresh (run at the
end of each document-pipeline run and of each document deletion) is derived
from the freshly evaluated checklist as: `documents_pending` iff some
required item is missing; otherwise `documents_review` iff overall
completeness is strictly below 100; otherwise `eligibility_check`. -/
theorem claim_c6_status_derivation :
    ∀ (reqs : ChecklistRequirements) (env : DateEnv) (docs : List Document)
      (a : Option ApplicantData),
      (updateApplicationChecklist reqs env docs a).1 = evaluateChecklist reqs env docs a
      ∧ ((updateApplicationChecklist reqs env docs a).2 = .documents_pending ↔
          ∃ i ∈ checklistItems (evaluateChecklist reqs env docs a),
            i.required = true ∧ i.status = .missing)
      ∧ ((¬∃ i ∈ checklistItems (evaluateChecklist reqs env docs a),
            i.required = true ∧ i.status = .missing) →
          ((updateApplicationChecklist reqs env docs a).2 = .documents_review ↔
            calculateOverallCompleteness (evaluateChecklist reqs env docs a) < 100))
      ∧ ((¬∃ i ∈ checklistItems (evaluateChecklist reqs env docs a),
            i.required = true ∧ i.status = .missing) →
          ¬(calculateOverallCompleteness (evaluateChecklist reqs env docs a) < 100) →
          (updateApplicationChecklist reqs env docs a).2 = .eligibility_check) := by
  intro reqs env docs a
  set cs := evaluateChecklist reqs env docs a with hcs
  have hs : (updateApplicationChecklist reqs env docs a).2 =
      if (getMissingDocuments cs).length > 0 then ApplicationStatus.documents_pending
      else if calculateOverallCompleteness cs < 100 then ApplicationStatus.documents_review
      else ApplicationStatus.eligibility_check := rfl
  refine ⟨rfl, ?_, ?_, ?_⟩
  · rw [hs]
    by_cases hm : getMissingDocuments cs = []
    · have hnone : ¬∃ i ∈ checklistItems cs, i.required = true ∧ i.status = .missing := by
        rw [← getMissingDocuments_ne_nil_iff]
        simp [hm]
      rw [if_neg (by simp [hm])]
      by_cases hc : calculateOverallCompleteness cs < 100
      · rw [if_pos hc]
        exact iff_of_false (by simp) hnone
      · rw [if_neg hc]
        exact iff_of_false (by simp) hnone
    · have hlen : (getMissingDocuments cs).length > 0 := List.length_pos.mpr hm
      rw [if_pos hlen]
      exact iff_of_true rfl ((getMissingDocuments_ne_nil_iff cs).mp hm)
  · intro hne
    have hm : getMissingDocuments cs = [] := by
      by_contra hc
      exact hne ((getMissingDocuments_ne_nil_iff cs).mp hc)
    rw [hs, if_neg (by simp [hm])]
    by_cases hc : calculateOverallCompleteness cs < 100
    · rw [if_pos hc]
      exact iff_of_true rfl hc
    · rw [if_neg hc]
      exact iff_of_false (by simp) hc
  · intro hne hc
    have hm : getMissingDocuments cs = [] := by
      by_contra hx
      exact hne ((getMissingDocuments_ne_nil_iff cs).mp hx)
    rw [hs, if_neg (by simp [hm]), if_neg hc]

theorem evaluateChecklist_verifiedDocs :
    evaluateChecklist DEFAULT_REQUIREMENTS (blindEnv 0) verifiedDocs none
      = verifiedChecklist := by
  simp [evaluateChecklist, DEFAULT_REQUIREMENTS, verifiedDocs, verifiedChecklist,
    docsOfCategory, simpleDoc, evaluateIdentityDocuments, identityStep,
    evaluateIncomeDocuments, evaluateBankStatements, evaluateProofOfAddress,
    evaluateWelfareBenefit, evaluateMedicalEvidence, evaluateTenancy,
    needsMedicalSupport, Document.getField, truthyStr, blindEnv]
  norm_num

/-- C6 witness: on a document set whose checklist has no required item
missing and completeness 100, the refresh assigns `eligibility_check`, and
`documents_review` holds iff completeness is below 100 (it is not). -/
theorem claim_c6_witness :
    (¬∃ i ∈ checklistItems
        (evaluateChecklist DEFAULT_REQUIREMENTS (blindEnv 0) verifiedDocs none),
        i.required = true ∧ i.status = .missing)
    ∧ ((updateApplicationChecklist DEFAULT_REQUIREMENTS (blindEnv 0) verifiedDocs none).2
          = .documents_review ↔
        calculateOverallCompleteness
          (evaluateChecklist DEFAULT_REQUIREMENTS (blindEnv 0) verifiedDocs none) < 100)
    ∧ (updateApplicationChecklist DEFAULT_REQUIREMENTS (blindEnv 0) verifiedDocs none).2
        = .eligibility_check := by
  have hne : ¬∃ i ∈ checklistItems
      (evaluateChecklist DEFAULT_REQUIREMENTS (blindEnv 0) verifiedDocs none),
      i.required = true ∧ i.status = .missing := by
    rw [evaluateChecklist_verifiedDocs]
    decide
  have hc : ¬(calculateOverallCompleteness
      (evaluateChecklist DEFAULT_REQUIREMENTS (blindEnv 0) verifiedDocs none) < 100) := by
    rw [evaluateChecklist_verifiedDocs]
    norm_num [calculateOverallCompleteness, checklistItems, completenessStep,
      verifiedChecklist, jsRound]
  exact ⟨hne,
    (claim_c6_status_derivation DEFAULT_REQUIREMENTS (blindEnv 0) verifiedDocs none).2.2.1 hne,
    (claim_c6_status_derivation DEFAULT_REQUIREMENTS (blindEnv 0) verifiedDocs none).2.2.2 hne hc⟩

/-! ### C7: medical evidence -/

/-- C7 counterexample: a medical document with completeness score 0 — below
both completeness thresholds the other conditional evaluators use — still
yields a `verified` medical-evidence item with no issues, whereas the
welfare-benefit evaluator (the claimed "same pattern") yields `pending` on
the same document. -/
theorem claim_c7_counterexample :
    (evaluateMedicalEvidence DEFAULT_REQUIREMENTS.medicalEvidence [medicalDoc] none).status
      = .verified
    ∧ (evaluateMedicalEvidence DEFAULT_REQUIREMENTS.medicalEvidence [medicalDoc] none).issues
      = none
    ∧ medicalDoc.completenessScore < 60 ∧ medicalDoc.completenessScore < 70
    ∧ (evaluateWelfareBenefit DEFAULT_REQUIREMENTS.welfareBenefit [medicalDoc] none).status
      = .pending := by
  refine ⟨rfl, rfl, by norm_num [medicalDoc], by norm_num [medicalDoc], ?_⟩
  simp [evaluateWelfareBenefit, medicalDoc, DEFAULT_REQUIREMENTS]

/-- C7 (amended: with at least one document present the medical-evidence item
is always `verified`, with no completeness check and no issue list): the
required flag is `true` iff policy requires it or some household member is
flagged as requiring support; zero documents give `missing` with a
required-dependent issue list; one or more documents give `verified`. -/
theorem claim_c7_medical_evidence :
    ∀ (req : ConditionalReq) (docs : List Document) (a : Option ApplicantData),
      (evaluateMedicalEvidence req docs a).required
        = (req.required || needsMedicalSupport a)
      ∧ (docs = [] →
          evaluateMedicalEvidence req docs a =
            { required := req.required || needsMedicalSupport a, status := .missing,
              documentIds := [],
              issues := if req.required || needsMedicalSupport a then
                some ["Medical evidence required for support needs assessment"]
              else none })
      ∧ (docs ≠ [] →
          evaluateMedicalEvidence req docs a =
            { required := req.required || needsMedicalSupport a, status := .verified,
              documentIds := docs.map (·.id), issues := none }) := by
  intro req docs a
  refine ⟨?_, ?_, ?_⟩
  · by_cases hd : docs = [] <;> simp [evaluateMedicalEvidence, hd]
  · intro hd
    simp [evaluateMedicalEvidence, hd]
  · intro hd
    simp [evaluateMedicalEvidence, hd]

/-- C7 witness: the amended theorem applied to one medical document. -/
theorem claim_c7_witness :
    ([medicalDoc] ≠ ([] : List Document))
    ∧ evaluateMedicalEvidence DEFAULT_REQUIREMENTS.medicalEvidence [medicalDoc] none
        = { required := DEFAULT_REQUIREMENTS.medicalEvidence.required
              || needsMedicalSupport none,
            status := .verified, documentIds := [medicalDoc].map (·.id),
            issues := none } :=
  ⟨by simp,
   (claim_c7_medical_evidence DEFAULT_REQUIREMENTS.medicalEvidence [medicalDoc] none).2.2
     (by simp)⟩

/-! ### C1: checklist evaluation and the clock -/

theorem identityStep_env_indep (req : IdentityReq) (env₁ env₂ : DateEnv)
    (d : Document)
    (h : (d.getField "expiryDate").bind (fun f => truthyStr f.value) = none)
    (acc : List String × List Document) :
    identityStep req env₁ acc d = identityStep req env₂ acc d := by
  rcases hx : d.getField "expiryDate" with _ | fld
  · simp [identityStep, hx]
  · rcases ht : truthyStr fld.value with _ | s
    · simp [identityStep, hx, ht]
    · rw [hx] at h
      simp [ht] at h

theorem foldl_identityStep_env (req : IdentityReq) (env₁ env₂ : DateEnv) :
    ∀ (l : List Document) (acc : List String × List Document),
      (∀ d ∈ l, (d.getField "expiryDate").bind (fun f => truthyStr f.value) = none) →
      l.foldl (identityStep req env₁) acc = l.foldl (identityStep req env₂) acc := by
  intro l
  induction l with
  | nil => intro acc _; rfl
  | cons d t ih =>
    intro acc h
    simp only [List.foldl_cons]
    rw [identityStep_env_indep req env₁ env₂ d (h d (List.mem_cons_self d t)) acc]
    exact ih _ (fun x hx => h x (List.mem_cons_of_mem d hx))

theorem evaluateIdentityDocuments_env_indep (req : IdentityReq) (env₁ env₂ : DateEnv)
    (docs : List Document)
    (h : ∀ d ∈ docs, (d.getField "expiryDate").bind (fun f => truthyStr f.value) = none) :
    evaluateIdentityDocuments req env₁ docs = evaluateIdentityDocuments req env₂ docs := by
  unfold evaluateIdentityDocuments
  rw [foldl_identityStep_env req env₁ env₂ docs ([], []) h]

theorem evaluateProofOfAddress_env_indep (req : ProofOfAddressReq) (env₁ env₂ : DateEnv)
    (docs : List Document)
    (h : ∀ d ∈ docs, (d.getField "documentDate").bind (fun f => truthyStr f.value) = none) :
    evaluateProofOfAddress req env₁ docs = evaluateProofOfAddress req env₂ docs := by
  unfold evaluateProofOfAddress
  rw [List.filterMap_congr ?_]
  intro d hd
  rcases hx : d.getField "documentDate" with _ | fld
  · simp [hx]
  · rcases ht : truthyStr fld.value with _ | s
    · simp [hx, ht]
    · have := h d hd
      rw [hx] at this
      simp [ht] at this

/-- C1 counterexample: the same document set and applicant snapshot evaluated
at two different wall-clock times give different checklists — the identity
document's `expiryDate` (day 40) is valid at day 30 and expired at day 50. -/
theorem claim_c1_counterexample :
    evaluateChecklist DEFAULT_REQUIREMENTS (dayEnv 30) [expiryDoc] none
      ≠ evaluateChecklist DEFAULT_REQUIREMENTS (dayEnv 50) [expiryDoc] none := by
  have hp : (decodeDec ("40" : String).data : Int) = 40 := by decide
  have h30 : (evaluateChecklist DEFAULT_REQUIREMENTS (dayEnv 30) [expiryDoc] none).identity.status
      = .verified := by
    simp [evaluateChecklist, docsOfCategory, expiryDoc, DEFAULT_REQUIREMENTS,
      evaluateIdentityDocuments, identityStep, Document.getField, truthyStr, dayEnv, hp]
    norm_num
  have h50 : (evaluateChecklist DEFAULT_REQUIREMENTS (dayEnv 50) [expiryDoc] none).identity.status
      = .issues := by
    simp [evaluateChecklist, docsOfCategory, expiryDoc, DEFAULT_REQUIREMENTS,
      evaluateIdentityDocuments, identityStep, Document.getField, truthyStr, dayEnv, hp]
  intro hcontra
  have h := congrArg (fun cs => cs.identity.status) hcontra
  simp only at h
  rw [h30, h50] at h
  exact absurd h (by simp)

/-- C1 (amended: `evaluate` is a pure function of the documents, the
applicant snapshot and the evaluation-time clock; it is independent of the
clock whenever no identity document carries a truthy `expiryDate` string and
no proof-of-address document carries a truthy `documentDate` string — those
two checks are the only reads of the wall clock). -/
theorem claim_c1_evaluate_determinism :
    ∀ (reqs : ChecklistRequirements) (docs : List Document) (a : Option ApplicantData),
      (∀ d ∈ docs, d.category = .identity →
        (d.getField "expiryDate").bind (fun f => truthyStr f.value) = none) →
      (∀ d ∈ docs, d.category = .proof_of_address →
        (d.getField "documentDate").bind (fun f => truthyStr f.value) = none) →
      ∀ env₁ env₂ : DateEnv,
        evaluateChecklist reqs env₁ docs a = evaluateChecklist reqs env₂ docs a := by
  intro reqs docs a h1 h2 env₁ env₂
  unfold evaluateChecklist
  congr 1
  · apply evaluateIdentityDocuments_env_indep
    intro d hd
    have hm := List.mem_filter.mp hd
    exact h1 d hm.1 (by simpa using hm.2)
  · apply evaluateProofOfAddress_env_indep
    intro d hd
    have hm := List.mem_filter.mp hd
    exact h2 d hm.1 (by simpa using hm.2)

/-- C1 witness: for a document set with no extracted date fields, evaluation
at two very different clocks (one of which cannot even parse dates) agrees. -/
theorem claim_c1_witness :
    evaluateChecklist DEFAULT_REQUIREMENTS (dayEnv 30) [incomeDoc] none
      = evaluateChecklist DEFAULT_REQUIREMENTS (blindEnv 999) [incomeDoc] none :=
  claim_c1_evaluate_determinism DEFAULT_REQUIREMENTS [incomeDoc] none
    (by
      intro d hd _
      have : d = incomeDoc := by simpa using hd
      subst this
      rfl)
    (by
      intro d hd _
      have : d = incomeDoc := by simpa using hd
      subst this
      rfl)
    (dayEnv 30) (blindEnv 999)

/-! ### C10: `other`/`unknown` documents are inert -/

theorem docsOfCategory_filter_other_unknown (docs : List Document)
    (c : DocumentCategory) (hc1 : c ≠ .other) (hc2 : c ≠ .unknown) :
    docsOfCategory
        (docs.filter (fun d => !(d.category == .other || d.category == .unknown))) c
      = docsOfCategory docs c := by
  unfold docsOfCategory
  rw [List.filter_filter]
  apply List.filter_congr
  intro d _
  cases hb : d.category == c
  · simp
  · have hcat : d.category = c := by simpa using hb
    simp [hcat, hc1, hc2]

theorem evaluateIdentityDocuments_docIds (req : IdentityReq) (env : DateEnv)
    (l : List Document) :
    (evaluateIdentityDocuments req env l).documentIds = [] ∨
    (evaluateIdentityDocuments req env l).documentIds = l.map (·.id) := by
  unfold evaluateIdentityDocuments
  by_cases h : l = []
  · left; simp [h]
  · right
    rcases hfold : l.foldl (identityStep req env) ([], []) with ⟨issues, valid⟩
    by_cases hv : valid.length < req.minDocuments <;> simp [h, hfold, hv]

theorem evaluateIncomeDocuments_docIds (req : IncomeReq) (l : List Document) :
    (evaluateIncomeDocuments req l).documentIds = [] ∨
    (evaluateIncomeDocuments req l).documentIds = l.map (·.id) := by
  unfold evaluateIncomeDocuments
  by_cases h : l = []
  · left; simp [h]
  · right; simp [h]

theorem evaluateBankStatements_docIds (req : BankStatementsReq) (l : List Document) :
    (evaluateBankStatements req l).documentIds = [] ∨
    (evaluateBankStatements req l).documentIds = l.map (·.id) := by
  unfold evaluateBankStatements
  by_cases h : l = []
  · left; simp [h]
  · right; simp [h]

theorem evaluateProofOfAddress_docIds (req : ProofOfAddressReq) (env : DateEnv)
    (l : List Document) :
    (evaluateProofOfAddress req env l).documentIds = [] ∨
    (evaluateProofOfAddress req env l).documentIds = l.map (·.id) := by
  unfold evaluateProofOfAddress
  by_cases h : l = []
  · left; simp [h]
  · right; simp [h]

theorem evaluateWelfareBenefit_docIds (req : ConditionalReq) (l : List Document)
    (a : Option ApplicantData) :
    (evaluateWelfareBenefit req l a).documentIds = [] ∨
    (evaluateWelfareBenefit req l a).documentIds = l.map (·.id) := by
  unfold evaluateWelfareBenefit
  by_cases h : l = []
  · left; simp [h]
  · right; simp [h]

theorem evaluateMedicalEvidence_docIds (req : ConditionalReq) (l : List Document)
    (a : Option ApplicantData) :
    (evaluateMedicalEvidence req l a).documentIds = [] ∨
    (evaluateMedicalEvidence req l a).documentIds = l.map (·.id) := by
  unfold evaluateMedicalEvidence
  by_cases h : l = []
  · left; simp [h]
  · right; simp [h]

theorem evaluateTenancy_docIds (req : ConditionalReq) (l : List Document)
    (a : Option ApplicantData) :
    (evaluateTenancy req l a).documentIds = [] ∨
    (evaluateTenancy req l a).documentIds = l.map (·.id) := by
  unfold evaluateTenancy
  by_cases h : l = []
  · left; simp [h]
  · right; simp [h]

theorem no_foreign_id (docs : List Document) (c : DocumentCategory) (d : Document)
    (hnodup : (docs.map (·.id)).Nodup) (hd : d ∈ docs) (hcat : d.category ≠ c) :
    d.id ∉ (docsOfCategory docs c).map (·.id) := by
  intro hmem
  obtain ⟨d', hd', hid⟩ := List.mem_map.mp hmem
  have hm := List.mem_filter.mp hd'
  have hc' : d'.category = c := by simpa using hm.2
  have : d' = d := List.inj_on_of_nodup_map hnodup hm.1 hd hid
  exact hcat (this ▸ hc')

/-- C10: documents classified `other` or `unknown` have no effect on the
checklist — filtering them out of the input leaves `evaluate`'s result
unchanged — and (when document ids are unique) no checklist item's
`documentIds` contains the id of an `other`/`unknown` document. -/
theorem claim_c10_other_unknown_inert :
    ∀ (reqs : ChecklistRequirements) (env : DateEnv) (docs : List Document)
      (a : Option ApplicantData),
      evaluateChecklist reqs env
          (docs.filter (fun d => !(d.category == .other || d.category == .unknown))) a
        = evaluateChecklist reqs env docs a
      ∧ ((docs.map (·.id)).Nodup →
          ∀ d ∈ docs, (d.category = .other ∨ d.category = .unknown) →
          ∀ item ∈ checklistItems (evaluateChecklist reqs env docs a),
            d.id ∉ item.documentIds) := by
  intro reqs env docs a
  constructor
  · unfold evaluateChecklist
    rw [docsOfCategory_filter_other_unknown docs .identity (by simp) (by simp),
        docsOfCategory_filter_other_unknown docs .income (by simp) (by simp),
        docsOfCategory_filter_other_unknown docs .bank_statement (by simp) (by simp),
        docsOfCategory_filter_other_unknown docs .proof_of_address (by simp) (by simp),
        docsOfCategory_filter_other_unknown docs .welfare_benefit (by simp) (by simp),
        docsOfCategory_filter_other_unknown docs .medical (by simp) (by simp),
        docsOfCategory_filter_other_unknown docs .tenancy (by simp) (by simp)]
  · intro hnodup d hd hcat item hitem
    have hne : ∀ c : DocumentCategory, c ≠ .other → c ≠ .unknown → d.category ≠ c := by
      intro c ho hu hx
      rcases hcat with h | h <;> rw [hx] at h
      · exact ho h
      · exact hu h
    have hins : ∀ (ids : List String) (c : DocumentCategory),
        c ≠ .other → c ≠ .unknown →
        (ids = [] ∨ ids = (docsOfCategory docs c).map (·.id)) → d.id ∉ ids := by
      rintro ids c ho hu (rfl | rfl)
      · simp
      · exact no_foreign_id docs c d hnodup hd (hne c ho hu)
    simp only [checklistItems, evaluateChecklist, List.mem_cons,
      List.mem_singleton] at hitem
    rcases hitem with rfl | rfl | rfl | rfl | rfl | rfl | rfl | h
    · exact hins _ .identity (by simp) (by simp)
        (evaluateIdentityDocuments_docIds _ _ _)
    · exact hins _ .income (by simp) (by simp)
        (evaluateIncomeDocuments_docIds _ _)
    · exact hins _ .bank_statement (by simp) (by simp)
        (evaluateBankStatements_docIds _ _)
    · exact hins _ .proof_of_address (by simp) (by simp)
        (evaluateProofOfAddress_docIds _ _ _)
    · exact hins _ .welfare_benefit (by simp) (by simp)
        (evaluateWelfareBenefit_docIds _ _ _)
    · exact hins _ .medical (by simp) (by simp)
        (evaluateMedicalEvidence_docIds _ _ _)
    · exact hins _ .tenancy (by simp) (by simp)
        (evaluateTenancy_docIds _ _ _)
    · exact absurd h (List.not_mem_nil _)

/-- C10 witness: with one identity document and one `other` document, the
filtered and unfiltered evaluations agree, and the `other` document's id does
not appear in the identity item. -/
theorem claim_c10_witness :
    evaluateChecklist DEFAULT_REQUIREMENTS (blindEnv 0)
        ([simpleDoc "d-id" .identity, otherDoc].filter
          (fun d => !(d.category == .other || d.category == .unknown))) none
      = evaluateChecklist DEFAULT_REQUIREMENTS (blindEnv 0)
          [simpleDoc "d-id" .identity, otherDoc] none
    ∧ otherDoc.id ∉ (evaluateChecklist DEFAULT_REQUIREMENTS (blindEnv 0)
        [simpleDoc "d-id" .identity, otherDoc] none).identity.documentIds := by
  refine ⟨(claim_c10_other_unknown_inert DEFAULT_REQUIREMENTS (blindEnv 0)
      [simpleDoc "d-id" .identity, otherDoc] none).1, ?_⟩
  exact (claim_c10_other_unknown_inert DEFAULT_REQUIREMENTS (blindEnv 0)
      [simpleDoc "d-id" .identity, otherDoc] none).2
    (by decide)
    otherDoc (List.Mem.tail _ (List.Mem.head _))
    (Or.inl rfl)
    _ (List.Mem.head _)

/-! ### C2: multi-page classification aggregation -/

theorem le_foldr_max (l : List ℚ) (a : ℚ) : a ≤ l.foldr max a := by
  induction l with
  | nil => exact le_refl a
  | cons q t ih => exact le_trans ih (le_max_right q _)

theorem foldr_max_swap (l : List ℚ) (a b : ℚ) :
    l.foldr max (max a b) = max a (l.foldr max b) := by
  induction l with
  | nil => rfl
  | cons q t ih =>
    simp only [List.foldr_cons, ih]
    rw [max_left_comm]

theorem foldr_max_attained (l : List ℚ) (a : ℚ) :
    l.foldr max a = a ∨ l.foldr max a ∈ l := by
  induction l with
  | nil => exact Or.inl rfl
  | cons q t ih =>
    simp only [List.foldr_cons]
    rcases le_total q (t.foldr max a) with h | h
    · rw [max_eq_right h]
      rcases ih with h' | h'
      · exact Or.inl h'
      · exact Or.inr (List.mem_cons_of_mem q h')
    · rw [max_eq_left h]
      exact Or.inr (List.mem_cons_self q t)

theorem mem_firstOccurrences_aux (rs : List ClassificationResult) :
    ∀ (acc : List DocumentCategory) (c : DocumentCategory),
      (c ∈ rs.foldl
          (fun acc r => if r.category ∈ acc then acc else acc ++ [r.category]) acc) ↔
        c ∈ acc ∨ ∃ r ∈ rs, r.category = c := by
  induction rs with
  | nil => simp
  | cons r t ih =>
    intro acc c
    simp only [List.foldl_cons]
    rw [ih]
    by_cases h : r.category ∈ acc
    · rw [if_pos h]
      constructor
      · rintro (hc | hc)
        · exact Or.inl hc
        · exact Or.inr (by simpa using Or.inr hc)
      · rintro (hc | hc)
        · exact Or.inl hc
        · rcases (by simpa using hc : r.category = c ∨ ∃ x ∈ t, x.category = c) with
            rfl | hx
          · exact Or.inl h
          · exact Or.inr hx
    · rw [if_neg h]
      constructor
      · rintro (hc | hc)
        · rcases List.mem_append.mp hc with hc' | hc'
          · exact Or.inl hc'
          · exact Or.inr (by simpa using Or.inl (List.mem_singleton.mp hc').symm)
        · exact Or.inr (by simpa using Or.inr hc)
      · rintro (hc | hc)
        · exact Or.inl (List.mem_append_left _ hc)
        · rcases (by simpa using hc : r.category = c ∨ ∃ x ∈ t, x.category = c) with
            rfl | hx
          · exact Or.inl (List.mem_append_right _ (List.mem_singleton_self _))
          · exact Or.inr hx

theorem mem_firstOccurrences (rs : List ClassificationResult) (c : DocumentCategory) :
    c ∈ firstOccurrences rs ↔ ∃ r ∈ rs, r.category = c := by
  rw [firstOccurrences, mem_firstOccurrences_aux]
  simp

theorem catScore_eq_zero_of_not_mem (rs : List ClassificationResult)
    (c : DocumentCategory) (h : c ∉ firstOccurrences rs) : catScore rs c = 0 := by
  rw [mem_firstOccurrences] at h
  push_neg at h
  unfold catScore
  rw [List.filter_eq_nil_iff.mpr ?_]
  · rfl
  · intro r hr
    simpa using h r hr

theorem catScore_append_singleton (rs : List ClassificationResult)
    (r : ClassificationResult) (c : DocumentCategory) :
    catScore (rs ++ [r]) c
      = catScore rs c + if r.category == c then r.confidence else 0 := by
  unfold catScore
  rw [List.filter_append, List.map_append, List.sum_append]
  congr 1
  cases hc : r.category == c <;> simp [List.filter_cons, hc]

theorem categoryScores_eq (rs : List ClassificationResult) :
    categoryScores rs = (firstOccurrences rs).map (fun c => (c, catScore rs c)) := by
  induction rs using List.reverseRecOn with
  | nil => rfl
  | append_singleton rs r ih =>
    have h1 : categoryScores (rs ++ [r])
        = addScore (categoryScores rs) r.category r.confidence := by
      unfold categoryScores
      rw [List.foldl_append]
      rfl
    have h2 : firstOccurrences (rs ++ [r]) =
        if r.category ∈ firstOccurrences rs then firstOccurrences rs
        else firstOccurrences rs ++ [r.category] := by
      unfold firstOccurrences
      rw [List.foldl_append]
      rfl
    rw [h1, ih, h2]
    by_cases hmem : r.category ∈ firstOccurrences rs
    · rw [if_pos hmem]
      unfold addScore
      have hany : ((List.map (fun c => (c, catScore rs c)) (firstOccurrences rs)).any
          (fun p => p.1 == r.category)) = true :=
        List.any_eq_true.mpr ⟨(r.category, catScore rs r.category),
          List.mem_map_of_mem (fun c => (c, catScore rs c)) hmem, by simp⟩
      rw [if_pos hany, List.map_map]
      apply List.map_congr_left
      intro c _
      simp only [Function.comp_apply]
      cases hcr : c == r.category
      · have hne : r.category ≠ c := by
          intro h
          rw [h] at hcr
          simp at hcr
        have hbf : (r.category == c) = false := by simpa using hne
        rw [catScore_append_singleton]
        simp [hbf]
      · have heq : c = r.category := by simpa using hcr
        subst heq
        rw [catScore_append_singleton]
        simp
    · rw [if_neg hmem]
      unfold addScore
      have hany : ¬ ((List.map (fun c => (c, catScore rs c)) (firstOccurrences rs)).any
          (fun p => p.1 == r.category)) = true := by
        intro hany
        rcases List.any_eq_true.mp hany with ⟨p, hp, hpc⟩
        rcases List.mem_map.mp hp with ⟨c, hc, rfl⟩
        exact hmem ((by simpa using hpc : c = r.category) ▸ hc)
      rw [if_neg hany, List.map_append]
      congr 1
      · apply List.map_congr_left
        intro c hc
        have hne : r.category ≠ c := fun h => hmem (h ▸ hc)
        have hbf : (r.category == c) = false := by simpa using hne
        rw [catScore_append_singleton]
        simp [hbf]
      · rw [List.map_singleton, catScore_append_singleton,
          catScore_eq_zero_of_not_mem rs r.category hmem]
        simp

/-- The `bestCategory`/`bestScore` fold finds the first pair whose score
equals the maximum, provided some pair strictly beats the initial score;
otherwise it keeps the initial pair. -/
theorem bestFold_spec (l : List (DocumentCategory × ℚ)) :
    ∀ b : DocumentCategory × ℚ,
      l.foldl (fun bs p => if p.2 > bs.2 then p else bs) b =
        if (l.map Prod.snd).foldr max b.2 = b.2 then b
        else (l.find? (fun p => p.2 == (l.map Prod.snd).foldr max b.2)).getD b := by
  induction l with
  | nil => intro b; simp
  | cons p t ih =>
    intro b
    simp only [List.foldl_cons, List.map_cons, List.foldr_cons]
    by_cases hq : p.2 > b.2
    · rw [if_pos hq, ih p]
      set Mt := (t.map Prod.snd).foldr max p.2 with hMt
      set M := max p.2 ((t.map Prod.snd).foldr max b.2) with hM
      have hMM : M = Mt := by
        rw [hMt, hM]
        have hmax : max p.2 b.2 = p.2 := max_eq_left (le_of_lt hq)
        rw [← foldr_max_swap]
        rw [hmax]
      by_cases hMtq : Mt = p.2
      · rw [if_pos hMtq]
        have hMne : ¬ (M = b.2) := by
          rw [hMM, hMtq]
          exact ne_of_gt hq
        rw [if_neg hMne]
        have hhead : (fun p' : DocumentCategory × ℚ => p'.2 == M) p = true := by
          rw [hMM, hMtq]
          simp
        rw [List.find?_cons_of_pos t hhead]
        rfl
      · rw [if_neg hMtq]
        have hq' : p.2 ≤ Mt := le_foldr_max _ _
        have hbm : b.2 < Mt := lt_of_lt_of_le hq hq'
        have hMne : ¬ (M = b.2) := by
          rw [hMM]
          intro h
          rw [h] at hbm
          exact lt_irrefl _ hbm
        rw [if_neg hMne]
        have hhead : ¬ ((fun p' : DocumentCategory × ℚ => p'.2 == M) p = true) := by
          rw [hMM]
          simpa using fun h : p.2 = Mt => hMtq h.symm
        rw [List.find?_cons_of_neg t hhead, hMM]
        have hmem : Mt ∈ t.map Prod.snd := by
          rcases foldr_max_attained (t.map Prod.snd) p.2 with h | h
          · exact absurd h hMtq
          · exact h
        rcases List.mem_map.mp hmem with ⟨x, hx, hx2⟩
        have hsome : (t.find? (fun p' => p'.2 == Mt)).isSome := by
          rw [List.find?_isSome]
          exact ⟨x, hx, by simp [hx2]⟩
        rcases Option.isSome_iff_exists.mp hsome with ⟨y, hy⟩
        rw [hy]
        rfl
    · rw [if_neg hq, ih b]
      set Mt' := (t.map Prod.snd).foldr max b.2 with hMt'
      have hqb : p.2 ≤ b.2 := le_of_not_lt hq
      have hMax : max p.2 Mt' = Mt' :=
        max_eq_right (le_trans hqb (le_foldr_max _ _))
      rw [hMax]
      by_cases hc : Mt' = b.2
      · rw [if_pos hc, if_pos hc]
      · rw [if_neg hc, if_neg hc]
        have hhead : ¬ ((fun p' : DocumentCategory × ℚ => p'.2 == Mt') p = true) := by
          have hne : p.2 ≠ Mt' := by
            intro h
            have hlt : b.2 < Mt' := lt_of_le_of_ne (le_foldr_max _ _) (Ne.symm hc)
            have := lt_of_le_of_lt hqb hlt
            rw [h] at this
            exact lt_irrefl _ this
          simpa using hne
        rw [List.find?_cons_of_neg t hhead]

theorem aggregate_category_eq_specWinner (rs : List ClassificationResult) :
    (aggregateClassifications rs).category = specWinner rs := by
  have hcat : (aggregateClassifications rs).category
      = (bestOf (categoryScores rs)).1 := rfl
  rw [hcat]
  unfold bestOf
  rw [bestFold_spec, categoryScores_eq]
  have hsnd : (((firstOccurrences rs).map (fun c => (c, catScore rs c))).map Prod.snd)
      = (firstOccurrences rs).map (fun c => catScore rs c) := by
    rw [List.map_map]
    exact List.map_congr_left fun c _ => rfl
  rw [hsnd]
  unfold specWinner
  by_cases h0 : ((firstOccurrences rs).map (fun c => catScore rs c)).foldr max 0 = 0
  · rw [if_pos h0, if_pos h0]
  · rw [if_neg h0, if_neg h0, List.find?_map]
    have hpred : ((fun p : DocumentCategory × ℚ =>
        p.2 == ((firstOccurrences rs).map (fun c => catScore rs c)).foldr max 0)
          ∘ (fun c => (c, catScore rs c)))
        = (fun c => catScore rs c ==
            ((firstOccurrences rs).map (fun c => catScore rs c)).foldr max 0) := rfl
    rw [hpred]
    rcases hf : (firstOccurrences rs).find?
        (fun c => catScore rs c ==
          ((firstOccurrences rs).map (fun c => catScore rs c)).foldr max 0) with _ | c
    · simp [hf]
    · simp [hf]

/-- C2 counterexample: with tied summed confidences (`income` 0.5 on page 1,
`identity` 0.5 on page 2) the code picks `income` — the first category in
`Map` insertion order — while the claimed enum-declaration-order tie-break
would pick `identity`. -/
theorem claim_c2_counterexample :
    (aggregateClassifications tiedPages).category = .income
    ∧ specWinnerClaimed tiedPages = .identity
    ∧ DocumentCategory.income ≠ DocumentCategory.identity := by
  have s_id : catScore tiedPages .identity = 1/2 := by
    simp [catScore, tiedPages, List.filter_cons]
    norm_num
  refine ⟨?_, ?_, by decide⟩
  · simp [aggregateClassifications, categoryScores, addScore, bestOf, tiedPages]
    try norm_num
    try simp
    try norm_num
    try simp
  · have hM : ((enumOrder.map (catScore tiedPages)).foldr max 0) = 1/2 := by
      simp [enumOrder, catScore, tiedPages, List.filter_cons]
      try norm_num
      try simp
      try norm_num
    unfold specWinnerClaimed
    rw [hM]
    dsimp only [enumOrder]
    rw [List.find?]
    rw [show (catScore tiedPages DocumentCategory.identity == (1 : ℚ)/2) = true from by
      simp [s_id]]
    rfl

/-- C2 (amended: the winner is the category with the highest summed
confidence with ties broken by order of first appearance in the page list —
not enum declaration order — and `unknown` with score 0 when no category has
a positive summed score): the aggregated category matches that rule; the
aggregated confidence is the mean confidence of the pages that voted for the
winner; and on the claim's example
`[{welfare_benefit,0.4},{welfare_benefit,0.5},{income,0.3}]` the result is
`welfare_benefit` at confidence 0.45, subtype from the highest-confidence
winning page, and no alternatives (income's 0.3 is not above 0.3). -/
theorem claim_c2_aggregation :
    (∀ rs : List ClassificationResult,
      (aggregateClassifications rs).category = specWinner rs)
    ∧ (∀ rs : List ClassificationResult,
        (aggregateClassifications rs).confidence
          = catScore rs ((aggregateClassifications rs).category)
            / ((rs.filter
                (fun r => r.category == (aggregateClassifications rs).category)).length : ℚ))
    ∧ (aggregateClassifications examplePages).category = .welfare_benefit
    ∧ (aggregateClassifications examplePages).confidence = 0.45
    ∧ (aggregateClassifications examplePages).subtype = some "hb_letter"
    ∧ (aggregateClassifications examplePages).alternativeCategories = some [] := by
  refine ⟨aggregate_category_eq_specWinner, fun rs => rfl, ?_, ?_, ?_, ?_⟩ <;>
    · simp [aggregateClassifications, categoryScores, addScore, bestOf,
        examplePages, sortByDesc, List.mergeSort, getAlternativeCategories,
        List.filter_cons]
      try norm_num [List.mergeSort]
      try simp [List.mergeSort]
      try norm_num [List.mergeSort]
      try simp [List.mergeSort]
      try norm_num [List.mergeSort]

/-! ### C9: reference-number generation -/

theorem lookup_map_update (l : List (String × Nat)) (name : String) :
    (l.map (fun p => if p.1 == name then (p.1, p.2 + 1) else p)).find?
        (fun p => p.1 == name)
      = (l.find? (fun p => p.1 == name)).map (fun p => (p.1, p.2 + 1)) := by
  induction l with
  | nil => rfl
  | cons p t ih =>
    cases hp : (p.1 == name)
    · simp only [List.map_cons, if_neg (by simp [hp] : ¬ (p.1 == name) = true)]
      rw [List.find?_cons_of_neg _ (by simpa using hp),
          List.find?_cons_of_neg _ (by simpa using hp), ih]
    · simp only [List.map_cons, if_pos hp]
      have hfindp : List.find? (fun q => q.1 == name) (p :: t) = some p := by
        rw [List.find?, hp]
      rw [List.find?_cons_of_pos _ (by simpa using hp), hfindp]
      rfl

theorem getNextSequence_fresh (st : SeqState) (name : String)
    (h : st.lookup name = none) :
    getNextSequence st name = (⟨st.counters ++ [(name, 1)]⟩, 1) := by
  have hfind : st.counters.find? (fun p => p.1 == name) = none := by
    rcases hf : st.counters.find? (fun p => p.1 == name) with _ | p
    · exact hf
    · rw [SeqState.lookup, hf] at h
      simp at h
  unfold getNextSequence
  rw [if_neg ?_]
  intro hany
  rcases List.any_eq_true.mp hany with ⟨p, hp, hpc⟩
  exact (List.find?_eq_none.mp hfind p hp) hpc

theorem getNextSequence_existing (st : SeqState) (name : String) (v : Nat)
    (h : st.lookup name = some v) :
    (getNextSequence st name).2 = v + 1 ∧
    (getNextSequence st name).1.lookup name = some (v + 1) := by
  obtain ⟨p, hf, hpv⟩ : ∃ p, st.counters.find? (fun p => p.1 == name) = some p
      ∧ p.2 = v := by
    rcases hf : st.counters.find? (fun p => p.1 == name) with _ | p
    · rw [SeqState.lookup, hf] at h
      simp at h
    · rw [SeqState.lookup, hf] at h
      exact ⟨p, hf, by simpa using h⟩
  have hmem := List.mem_of_find?_eq_some hf
  have hpx := List.find?_some hf
  have hany : st.counters.any (fun p => p.1 == name) = true :=
    List.any_eq_true.mpr ⟨p, hmem, hpx⟩
  have hlook : (SeqState.mk (st.counters.map
      (fun p => if p.1 == name then (p.1, p.2 + 1) else p))).lookup name
      = some (v + 1) := by
    rw [SeqState.lookup, lookup_map_update, hf]
    simp [hpv]
  constructor
  · unfold getNextSequence
    rw [if_pos hany]
    show ((SeqState.mk (st.counters.map
        (fun p => if p.1 == name then (p.1, p.2 + 1) else p))).lookup name).getD 0 = v + 1
    rw [hlook]
    rfl
  · unfold getNextSequence
    rw [if_pos hany]
    exact hlook

theorem generateRefs_from (year : Nat) :
    ∀ (N : Nat) (st : SeqState) (v : Nat),
      st.lookup (seqName year) = some v →
      (generateRefs st year N).2 = (List.range N).map (fun i => refStr year (v + 1 + i))
      ∧ (generateRefs st year N).1.lookup (seqName year) = some (v + N) := by
  intro N
  induction N with
  | zero => intro st v h; exact ⟨rfl, by simpa using h⟩
  | succ n ih =>
    intro st v h
    obtain ⟨hval, hlook⟩ := getNextSequence_existing st (seqName year) v h
    have hgen : generateReferenceNumber st year
        = ((getNextSequence st (seqName year)).1, refStr year (v + 1)) := by
      unfold generateReferenceNumber
      show (match getNextSequence st (seqName year) with
            | (st2, sequenceNumber) => (st2, refStr year sequenceNumber))
          = ((getNextSequence st (seqName year)).1, refStr year (v + 1))
      rcases hq : getNextSequence st (seqName year) with ⟨st1, m⟩
      have hm : m = v + 1 := by rw [hq] at hval; exact hval
      rw [hm]
    obtain ⟨ih1, ih2⟩ := ih (getNextSequence st (seqName year)).1 (v + 1) hlook
    have hstep : generateRefs st year (n + 1)
        = ((generateRefs (getNextSequence st (seqName year)).1 year n).1,
           refStr year (v + 1) ::
             (generateRefs (getNextSequence st (seqName year)).1 year n).2) := by
      show (match generateReferenceNumber st year with
            | (st1, r) =>
              match generateRefs st1 year n with
              | (st2, rs) => (st2, r :: rs))
          = _
      rw [hgen]
    refine ⟨?_, ?_⟩
    · rw [hstep]
      simp only [ih1, List.range_succ_eq_map, List.map_cons, List.map_map]
      congr 1
      apply List.map_congr_left
      intro i _
      simp only [Function.comp_apply]
      rw [show v + 2 + i = v + 1 + (i + 1) from by omega]
    · rw [hstep]
      simp only [ih2]
      rw [show v + 1 + n = v + (n + 1) from by omega]

theorem refStr_inj (year : Nat) : ∀ a b : Nat, refStr year a = refStr year b → a = b := by
  intro a b h
  have hdata := congrArg String.data h
  simp only [refStr, String.data_append, List.append_assoc] at hdata
  have h1 := List.append_cancel_left hdata
  have h2 := List.append_cancel_left h1
  have h3 := List.append_cancel_left h2
  have hd : decodeDec (pad4 (natToDec a)).data = decodeDec (pad4 (natToDec b)).data := by
    rw [h3]
  rwa [decodeDec_pad4_natToDec, decodeDec_pad4_natToDec] at hd

theorem generateRefs_fresh (year N : Nat) (st : SeqState)
    (h : st.lookup (seqName year) = none) :
    (generateRefs st year N).2 = (List.range N).map (fun i => refStr year (i + 1)) := by
  cases N with
  | zero => rfl
  | succ n =>
    have hfresh := getNextSequence_fresh st (seqName year) h
    have hgen : generateReferenceNumber st year
        = (⟨st.counters ++ [(seqName year, 1)]⟩, refStr year 1) := by
      unfold generateReferenceNumber
      show (match getNextSequence st (seqName year) with
            | (st2, sequenceNumber) => (st2, refStr year sequenceNumber)) = _
      rw [hfresh]
    have hfind : st.counters.find? (fun p => p.1 == seqName year) = none := by
      rcases hf : st.counters.find? (fun p => p.1 == seqName year) with _ | p
      · exact hf
      · rw [SeqState.lookup, hf] at h
        simp at h
    have hlook1 : (SeqState.mk (st.counters ++ [(seqName year, 1)])).lookup (seqName year)
        = some 1 := by
      rw [SeqState.lookup, List.find?_append, hfind]
      simp [List.find?]
    have hstep : generateRefs st year (n + 1)
        = ((generateRefs (SeqState.mk (st.counters ++ [(seqName year, 1)])) year n).1,
           refStr year 1 ::
             (generateRefs (SeqState.mk (st.counters ++ [(seqName year, 1)])) year n).2) := by
      show (match generateReferenceNumber st year with
            | (st1, r) =>
              match generateRefs st1 year n with
              | (st2, rs) => (st2, r :: rs)) = _
      rw [hgen]
    obtain ⟨h1, _⟩ :=
      generateRefs_from year n (SeqState.mk (st.counters ++ [(seqName year, 1)])) 1 hlook1
    rw [hstep]
    simp only [h1, List.range_succ_eq_map, List.map_cons, List.map_map, Nat.zero_add]
    congr 1
    apply List.map_congr_left
    intro i _
    simp only [Function.comp_apply]
    congr 1
    omega

theorem refs_range_nodup (year N : Nat) :
    ((List.range N).map (fun i => refStr year (i + 1))).Nodup := by
  refine List.Nodup.map ?_ (List.nodup_range N)
  intro a b hab
  have := refStr_inj year (a + 1) (b + 1) hab
  omega

/-- C9: Starting from a state with no sequence counter for year `Y`, `N`
sequential case creations generate exactly the reference numbers
`SH-Y-0001` through `SH-Y-000N` (the i-th, 1-based, reference is
`refStr Y i`, i.e. "SH-", the year, "-", and the sequence number
zero-padded to 4 digits), with no gaps and no duplicates: the per-year
counter is initialized to 1 on first use and incremented by 1 on each
subsequent creation. -/
theorem claim_c9_reference_numbers (year N : Nat) (st : SeqState)
    (h : st.lookup (seqName year) = none) :
    (generateRefs st year N).2 = (List.range N).map (fun i => refStr year (i + 1))
    ∧ ((generateRefs st year N).2).Nodup := by
  have h1 := generateRefs_fresh year N st h
  exact ⟨h1, h1 ▸ refs_range_nodup year N⟩

theorem claim_c9_witness :
    (SeqState.mk []).lookup (seqName 2024) = none
    ∧ (generateRefs ⟨[]⟩ 2024 3).2 = ["SH-2024-0001", "SH-2024-0002", "SH-2024-0003"]
    ∧ ((generateRefs ⟨[]⟩ 2024 3).2).Nodup := by
  obtain ⟨h1, h2⟩ := claim_c9_reference_numbers 2024 3 ⟨[]⟩ rfl
  exact ⟨rfl, by rw [h1]; rfl, h2⟩

end SocialHousing
